import Mathlib

/-!
# catalogueConnect backend: shallow embedding and verification

This file embeds the route handlers of the Express backend (`src/unnamed/part_000`,
referred to below as `routes`) together with the in-memory storage backend
(`src/storage.ts`, class `MemStorage`) as executable Lean definitions, and settles
the frozen claims about them.

Modelling conventions:
* JavaScript strings are `String`/`List Char`; byte buffers are `List Nat` with
  each element `< 256`; epoch-millisecond clocks (`Date.now()`) are `Nat`
  parameters called `now`.
* `Buffer.from(str).toString('base64')` / `Buffer.from(tok,'base64').toString()`
  are modelled by an executable UTF-8 codec composed with an executable
  standard-alphabet base64 codec.  Node's lenient decoders never throw: on
  garbage they produce bytes whose `JSON.parse` then throws, landing in the same
  401 branch that our `Option.none` decode result lands in, so statuses agree.
* `JSON.parse` is modelled by a recursive-descent parser `parseJVal` into the
  JSON value type `JVal` (numbers restricted to integers, which covers every
  token the system itself mints); `JSON.stringify` of the token payload object
  is modelled by `stringifyPayload`, including JSON string escaping.
* Route-level zod validation (`insertXSchema.parse`) is modelled by giving the
  handlers already-typed request bodies.
-/

/-! ## Decimal digits (Number.prototype.toString / parseInt building blocks) -/


def digitChar (n : Nat) : Char := Char.ofNat (48 + n)

def isDigit (c : Char) : Bool := 48 ≤ c.toNat ∧ c.toNat ≤ 57

def natToCharsAux : Nat → Nat → List Char
  | 0, _ => []
  | fuel + 1, n =>
    if n < 10 then [digitChar n] else natToCharsAux fuel (n / 10) ++ [digitChar (n % 10)]

/-- Decimal rendering of a natural number, as `Number.prototype.toString()`
produces for integers (the fuel `n + 1` always suffices). -/
def natToChars (n : Nat) : List Char := natToCharsAux (n + 1) n

def natToString (n : Nat) : String := ⟨natToChars n⟩

def digitVal (c : Char) : Nat := c.toNat - 48

def digitsVal (ds : List Char) : Nat := ds.foldl (fun a c => a * 10 + digitVal c) 0

/-- Greedy decimal parse: value of the leading digit run plus the rest,
`none` when there is no leading digit (NaN in JavaScript). -/
def parseNatChars (cs : List Char) : Option (Nat × List Char) :=
  let ds := cs.takeWhile isDigit
  if ds.isEmpty then none else some (digitsVal ds, cs.dropWhile isDigit)

/-- Model of `parseInt` on a JavaScript string: leading decimal digit run, else NaN. -/
def parseIntStr (s : String) : Option Nat := (parseNatChars s.toList).map (·.1)

/-- Lower-case hex digit, as `JSON.stringify` uses in `\u00xx` escapes. -/
def hexDigit (n : Nat) : Char := if n < 10 then Char.ofNat (48 + n) else Char.ofNat (87 + n)

def hexVal (c : Char) : Option Nat :=
  if 48 ≤ c.toNat ∧ c.toNat ≤ 57 then some (c.toNat - 48)
  else if 97 ≤ c.toNat ∧ c.toNat ≤ 102 then some (c.toNat - 87)
  else if 65 ≤ c.toNat ∧ c.toNat ≤ 70 then some (c.toNat - 55)
  else none

/-- JSON.stringify escaping of one character inside a string literal. -/
def escapeChar (c : Char) : List Char :=
  if c = '"' then ['\\', '"']
  else if c = '\\' then ['\\', '\\']
  else if c = '\x08' then ['\\', 'b']
  else if c = '\x09' then ['\\', 't']
  else if c = '\x0a' then ['\\', 'n']
  else if c = '\x0c' then ['\\', 'f']
  else if c = '\x0d' then ['\\', 'r']
  else if c.toNat < 32 then ['\\', 'u', '0', '0', hexDigit (c.toNat / 16), hexDigit (c.toNat % 16)]
  else [c]

def escapeChars (s : List Char) : List Char := s.bind escapeChar

/-- A serialised JSON string literal, quotes included. -/
def jStrLit (s : List Char) : List Char := '"' :: (escapeChars s ++ ['"'])

def charOfNat? (n : Nat) : Option Char :=
  if h : n.isValidChar then some (Char.ofNat n) else none

/-- JSON string-body parser: called after the opening quote has been consumed,
returns the unescaped contents and the remainder after the closing quote. -/
def parseJString : List Char → Option (List Char × List Char)
  | [] => none
  | c :: rest =>
    if c = '"' then some ([], rest)
    else if c = '\\' then
      match rest with
      | [] => none
      | e :: rest2 =>
        if e = '"' then (parseJString rest2).map (fun p => ('"' :: p.1, p.2))
        else if e = '\\' then (parseJString rest2).map (fun p => ('\\' :: p.1, p.2))
        else if e = '/' then (parseJString rest2).map (fun p => ('/' :: p.1, p.2))
        else if e = 'b' then (parseJString rest2).map (fun p => ('\x08' :: p.1, p.2))
        else if e = 't' then (parseJString rest2).map (fun p => ('\x09' :: p.1, p.2))
        else if e = 'n' then (parseJString rest2).map (fun p => ('\x0a' :: p.1, p.2))
        else if e = 'f' then (parseJString rest2).map (fun p => ('\x0c' :: p.1, p.2))
        else if e = 'r' then (parseJString rest2).map (fun p => ('\x0d' :: p.1, p.2))
        else if e = 'u' then
          match rest2 with
          | h1 :: h2 :: h3 :: h4 :: rest3 =>
            match hexVal h1, hexVal h2, hexVal h3, hexVal h4 with
            | some v1, some v2, some v3, some v4 =>
              match charOfNat? (v1 * 4096 + v2 * 256 + v3 * 16 + v4) with
              | some ch => (parseJString rest3).map (fun p => (ch :: p.1, p.2))
              | none => none
            | _, _, _, _ => none
          | _ => none
        else none
    else if c.toNat < 32 then none
    else (parseJString rest).map (fun p => (c :: p.1, p.2))

inductive JVal where
  | jnull : JVal
  | jbool : Bool → JVal
  | jnum : Int → JVal
  | jstr : List Char → JVal
  | jarr : List JVal → JVal
  | jobj : List (List Char × JVal) → JVal

def isWs (c : Char) : Bool := c = ' ' ∨ c = '\x09' ∨ c = '\x0a' ∨ c = '\x0d'

def skipWs : List Char → List Char
  | [] => []
  | c :: rest => if isWs c then skipWs rest else c :: rest

/-- Integer parse with optional leading minus (the fragment of JSON numbers the
embedding supports; a fractional or exponent tail is left unconsumed, which
makes the enclosing parse fail, modelling a decode error). -/
def parseJInt (cs : List Char) : Option (Int × List Char) :=
  match cs with
  | [] => none
  | c :: rest =>
    if c = '-' then (parseNatChars rest).map (fun p => (-(p.1 : Int), p.2))
    else (parseNatChars (c :: rest)).map (fun p => ((p.1 : Int), p.2))

mutual

/-- Recursive-descent JSON value parser (model of `JSON.parse`), fuelled by the
nesting budget; each recursive call consumes at least one input character, so
`length + 1` fuel always suffices. -/
def parseJVal : Nat → List Char → Option (JVal × List Char)
  | 0, _ => none
  | fuel + 1, cs =>
    match skipWs cs with
    | [] => none
    | c :: rest =>
      if c = '"' then (parseJString rest).map (fun p => (JVal.jstr p.1, p.2))
      else if c = '\x7b' then
        match skipWs rest with
        | '\x7d' :: r => some (JVal.jobj [], r)
        | _ => parseJMembers fuel rest
      else if c = '[' then
        match skipWs rest with
        | ']' :: r => some (JVal.jarr [], r)
        | _ => parseJElems fuel rest
      else if c = 'n' then
        match rest with
        | 'u' :: 'l' :: 'l' :: r => some (JVal.jnull, r)
        | _ => none
      else if c = 't' then
        match rest with
        | 'r' :: 'u' :: 'e' :: r => some (JVal.jbool true, r)
        | _ => none
      else if c = 'f' then
        match rest with
        | 'a' :: 'l' :: 's' :: 'e' :: r => some (JVal.jbool false, r)
        | _ => none
      else (parseJInt (c :: rest)).map (fun p => (JVal.jnum p.1, p.2))

/-- Object members after the opening brace (at least one member). -/
def parseJMembers : Nat → List Char → Option (JVal × List Char)
  | 0, _ => none
  | fuel + 1, cs =>
    match skipWs cs with
    | '"' :: kr =>
      match parseJString kr with
      | none => none
      | some (key, r1) =>
        match skipWs r1 with
        | ':' :: r2 =>
          match parseJVal fuel r2 with
          | none => none
          | some (v, r3) =>
            match skipWs r3 with
            | ',' :: r4 =>
              match parseJMembers fuel r4 with
              | some (JVal.jobj fs, r5) => some (JVal.jobj ((key, v) :: fs), r5)
              | _ => none
            | '\x7d' :: r4 => some (JVal.jobj [(key, v)], r4)
            | _ => none
        | _ => none
    | _ => none

/-- Array elements after the opening bracket (at least one element). -/
def parseJElems : Nat → List Char → Option (JVal × List Char)
  | 0, _ => none
  | fuel + 1, cs =>
    match parseJVal fuel cs with
    | none => none
    | some (v, r1) =>
      match skipWs r1 with
      | ',' :: r2 =>
        match parseJElems fuel r2 with
        | some (JVal.jarr vs, r3) => some (JVal.jarr (v :: vs), r3)
        | _ => none
      | ']' :: r2 => some (JVal.jarr [v], r2)
      | _ => none

end

/-- Model of `JSON.parse`: parse one value, allowing trailing whitespace only. -/
def jsonParse (cs : List Char) : Option JVal :=
  match parseJVal (cs.length + 1) cs with
  | some (v, rest) => if (skipWs rest).isEmpty then some v else none
  | none => none

/-! ## The token payload and its JSON roundtrip -/

/-- Model of `JSON.stringify({catalogueId, email, exp})` with the routes' key order. -/
def stringifyPayload (cid : Nat) (email : List Char) (exp : Nat) : List Char :=
  '\x7b' :: (jStrLit "catalogueId".toList ++ ':' :: natToChars cid ++
    ',' :: jStrLit "email".toList ++ ':' :: jStrLit email ++
    ',' :: jStrLit "exp".toList ++ ':' :: natToChars exp ++ ['\x7d'])

/-- The JSON value the payload parses back to. -/
def payloadJVal (cid : Nat) (email : List Char) (exp : Nat) : JVal :=
  JVal.jobj [("catalogueId".toList, JVal.jnum (cid : Int)),
    ("email".toList, JVal.jstr email),
    ("exp".toList, JVal.jnum (exp : Int))]

/-- UTF-8 encoding of one unicode scalar value. -/
def utf8EncodeChar (c : Char) : List Nat :=
  if c.toNat < 128 then [c.toNat]
  else if c.toNat < 2048 then [192 + c.toNat / 64, 128 + c.toNat % 64]
  else if c.toNat < 65536 then
    [224 + c.toNat / 4096, 128 + c.toNat / 64 % 64, 128 + c.toNat % 64]
  else
    [240 + c.toNat / 262144, 128 + c.toNat / 4096 % 64, 128 + c.toNat / 64 % 64,
      128 + c.toNat % 64]

def utf8Encode (s : List Char) : List Nat := s.flatMap utf8EncodeChar

def isCont (b : Nat) : Bool := 128 ≤ b ∧ b < 192

/-- Decode one UTF-8 scalar from a lead byte and the remaining bytes. -/
def utf8DecodeStep (b : Nat) (rest : List Nat) : Option (Char × List Nat) :=
  if b < 128 then (charOfNat? b).map (fun c => (c, rest))
  else if b < 192 then none
  else if b < 224 then
    match rest with
    | b1 :: rest1 =>
      if isCont b1 then (charOfNat? ((b - 192) * 64 + (b1 - 128))).map (fun c => (c, rest1))
      else none
    | [] => none
  else if b < 240 then
    match rest with
    | b1 :: b2 :: rest2 =>
      if isCont b1 ∧ isCont b2 then
        (charOfNat? ((b - 224) * 4096 + (b1 - 128) * 64 + (b2 - 128))).map (fun c => (c, rest2))
      else none
    | _ => none
  else if b < 248 then
    match rest with
    | b1 :: b2 :: b3 :: rest3 =>
      if isCont b1 ∧ isCont b2 ∧ isCont b3 then
        (charOfNat? ((b - 240) * 262144 + (b1 - 128) * 4096 + (b2 - 128) * 64 + (b3 - 128))).map
          (fun c => (c, rest3))
      else none
    | _ => none
  else none

/-- Fuelled UTF-8 decode; the fuel drops once per decoded character, so the
byte count always suffices. -/
def utf8DecodeAux : Nat → List Nat → Option (List Char)
  | _, [] => some []
  | 0, _ :: _ => none
  | fuel + 1, b :: rest =>
    match utf8DecodeStep b rest with
    | some (c, rest') => (utf8DecodeAux fuel rest').map (c :: ·)
    | none => none

/-- UTF-8 decoding; `none` on malformed byte sequences (Node instead substitutes
replacement characters, which then fail `JSON.parse`: both land in the handlers'
invalid-token branch). -/
def utf8Decode (bs : List Nat) : Option (List Char) := utf8DecodeAux bs.length bs

/-- Standard base64 alphabet character for a 6-bit value. -/
def b64Char (n : Nat) : Char :=
  if n < 26 then Char.ofNat (65 + n)
  else if n < 52 then Char.ofNat (97 + (n - 26))
  else if n < 62 then Char.ofNat (48 + (n - 52))
  else if n = 62 then '+'
  else '/'

def b64Val (c : Char) : Option Nat :=
  if 65 ≤ c.toNat ∧ c.toNat ≤ 90 then some (c.toNat - 65)
  else if 97 ≤ c.toNat ∧ c.toNat ≤ 122 then some (c.toNat - 97 + 26)
  else if 48 ≤ c.toNat ∧ c.toNat ≤ 57 then some (c.toNat - 48 + 52)
  else if c = '+' then some 62
  else if c = '/' then some 63
  else none

/-- Standard base64 encoding with `=` padding, three bytes at a time. -/
def base64Encode : List Nat → List Char
  | [] => []
  | [a] => [b64Char (a / 4), b64Char (a % 4 * 16), '=', '=']
  | [a, b] => [b64Char (a / 4), b64Char (a % 4 * 16 + b / 16), b64Char (b % 16 * 4), '=']
  | a :: b :: d :: rest =>
    b64Char (a / 4) :: b64Char (a % 4 * 16 + b / 16) :: b64Char (b % 16 * 4 + d / 64) ::
      b64Char (d % 64) :: base64Encode rest

/-- Strict base64 decoding of four-character groups with trailing padding;
`none` on other inputs.  (Node's decoder is lenient and produces best-effort
bytes for malformed input; such bytes fail the JSON stage just as `none` fails
here, so the handlers' observable behaviour agrees.) -/
def base64Decode : List Char → Option (List Nat)
  | [] => some []
  | c1 :: c2 :: c3 :: c4 :: rest =>
    match b64Val c1, b64Val c2 with
    | some v1, some v2 =>
      if c3 = '=' then
        if c4 = '=' ∧ rest = [] then some [v1 * 4 + v2 / 16] else none
      else
        match b64Val c3 with
        | some v3 =>
          if c4 = '=' then
            if rest = [] then some [v1 * 4 + v2 / 16, v2 % 16 * 16 + v3 / 4] else none
          else
            match b64Val c4 with
            | some v4 =>
              (base64Decode rest).map
                (fun bs => (v1 * 4 + v2 / 16) :: (v2 % 16 * 16 + v3 / 4) :: (v3 % 4 * 64 + v4) :: bs)
            | none => none
        | none => none
    | _, _ => none
  | _ => none

/-- Model of `btoa(JSON.stringify({catalogueId, email, exp}))` as minted by
`POST /api/shared/:link/check-access`. -/
def tokenEncode (cid : Nat) (email : String) (exp : Nat) : String :=
  ⟨base64Encode (utf8Encode (stringifyPayload cid email.toList exp))⟩

/-- Model of `JSON.parse(Buffer.from(token, 'base64').toString())` as performed by the
shared-catalogue handlers; `none` models the decode/parse error paths. -/
def tokenParse (token : String) : Option JVal :=
  match base64Decode token.toList with
  | none => none
  | some bytes =>
    match utf8Decode bytes with
    | none => none
    | some chars => jsonParse chars

structure User where
  id : Nat
  username : String
  password : String
  email : String
  company : Option String
  createdAt : Nat
deriving DecidableEq, Repr

structure Product where
  id : Nat
  userId : Nat
  name : String
  description : Option String
  price : String
  imageUrl : Option String
  category : Option String
  inStock : Option Bool
  createdAt : Nat
deriving DecidableEq, Repr

structure Catalogue where
  id : Nat
  userId : Nat
  name : String
  description : Option String
  shareableLink : String
  isPublic : Option Bool
  views : Nat
  createdAt : Nat
deriving DecidableEq, Repr

structure CatalogueProduct where
  id : Nat
  catalogueId : Nat
  productId : Nat
deriving DecidableEq, Repr

structure Order where
  id : Nat
  userId : Nat
  orderId : String
  catalogueId : Option Nat
  retailerName : String
  retailerEmail : String
  retailerCompany : String
  items : String
  amount : String
  paymentStatus : String
  orderDate : Nat
deriving DecidableEq, Repr

structure AccessRequest where
  id : Nat
  catalogueId : Nat
  name : String
  email : String
  company : String
  message : Option String
  status : String
  requestDate : Nat
deriving DecidableEq, Repr

/-- A JavaScript `number | string` value, as accepted for prices/amounts. -/
inductive NumOrStr where
  | num : Int → NumOrStr
  | str : String → NumOrStr
deriving DecidableEq, Repr

def intToString (n : Int) : String :=
  if n < 0 then "-" ++ natToString n.natAbs else natToString n.natAbs

/-- Model of `typeof x === 'number' ? x.toString() : x`. -/
def NumOrStr.asString : NumOrStr → String
  | .num n => intToString n
  | .str s => s

/-- The in-memory storage backend (`MemStorage`): JS `Map`s in insertion order
plus the mutable id counters. -/
structure Storage where
  users : List User
  products : List Product
  catalogues : List Catalogue
  catalogueProducts : List CatalogueProduct
  orders : List Order
  accessRequests : List AccessRequest
  currentUserId : Nat
  currentProductId : Nat
  currentCatalogueId : Nat
  currentCatalogueProductId : Nat
  currentOrderId : Nat
  currentAccessRequestId : Nat
deriving DecidableEq, Repr

/-! ## MemStorage operations -/

def getUser (s : Storage) (id : Nat) : Option User := s.users.find? (·.id = id)

def getProduct (s : Storage) (id : Nat) : Option Product := s.products.find? (·.id = id)

def getCatalogue (s : Storage) (id : Nat) : Option Catalogue := s.catalogues.find? (·.id = id)

def getCatalogueByLink (s : Storage) (link : String) : Option Catalogue :=
  s.catalogues.find? (·.shareableLink = link)

/-- Join rows for a catalogue, resolved to products; rows whose product no
longer exists are dropped (`.filter(Boolean)`). -/
def getCatalogueProducts (s : Storage) (cid : Nat) : List Product :=
  (s.catalogueProducts.filter (·.catalogueId = cid)).filterMap
    (fun cp => getProduct s cp.productId)

/-- Model of `Partial<InsertProduct>` as used by `updateProduct`. -/
structure ProductUpdate where
  userId : Option Nat := none
  name : Option String := none
  description : Option (Option String) := none
  price : Option NumOrStr := none
  imageUrl : Option (Option String) := none
  category : Option (Option String) := none
  inStock : Option (Option Bool) := none
deriving DecidableEq, Repr

def applyProductUpdate (p : Product) (u : ProductUpdate) : Product :=
  { p with
    userId := u.userId.getD p.userId
    name := u.name.getD p.name
    description := u.description.getD p.description
    imageUrl := u.imageUrl.getD p.imageUrl
    category := u.category.getD p.category
    inStock := u.inStock.getD p.inStock
    price := match u.price with
      | some v => v.asString
      | none => p.price }

def updateProduct (s : Storage) (id : Nat) (u : ProductUpdate) : Option Product × Storage :=
  match s.products.find? (·.id = id) with
  | none => (none, s)
  | some p =>
    let p' := applyProductUpdate p u
    (some p', { s with products := s.products.map (fun x => if x.id = id then p' else x) })

def deleteProduct (s : Storage) (id : Nat) : Bool × Storage :=
  ((s.products.find? (·.id = id)).isSome,
    { s with products := s.products.filter (·.id ≠ id) })

/-- Model of `Partial<InsertCatalogue>` as used by `updateCatalogue`. -/
structure CatalogueUpdate where
  userId : Option Nat := none
  name : Option String := none
  description : Option (Option String) := none
  shareableLink : Option String := none
  isPublic : Option (Option Bool) := none
deriving DecidableEq, Repr

def applyCatalogueUpdate (c : Catalogue) (u : CatalogueUpdate) : Catalogue :=
  { c with
    userId := u.userId.getD c.userId
    name := u.name.getD c.name
    description := u.description.getD c.description
    shareableLink := u.shareableLink.getD c.shareableLink
    isPublic := u.isPublic.getD c.isPublic }

def updateCatalogue (s : Storage) (id : Nat) (u : CatalogueUpdate) :
    Option Catalogue × Storage :=
  match s.catalogues.find? (·.id = id) with
  | none => (none, s)
  | some c =>
    let c' := applyCatalogueUpdate c u
    (some c', { s with catalogues := s.catalogues.map (fun x => if x.id = id then c' else x) })

def deleteCatalogue (s : Storage) (id : Nat) : Bool × Storage :=
  ((s.catalogues.find? (·.id = id)).isSome,
    { s with catalogues := s.catalogues.filter (·.id ≠ id) })

/-- Model of `catalogue.views = (catalogue.views || 0) + 1`; `MemStorage` always stores a
number here (`createCatalogue` starts at 0), so `|| 0` is the identity. -/
def incrementCatalogueViews (s : Storage) (id : Nat) : Storage :=
  { s with catalogues :=
      s.catalogues.map (fun c => if c.id = id then { c with views := c.views + 1 } else c) }

def addProductToCatalogue (s : Storage) (cid pid : Nat) : CatalogueProduct × Storage :=
  let row : CatalogueProduct :=
    { id := s.currentCatalogueProductId, catalogueId := cid, productId := pid }
  (row, { s with
    catalogueProducts := s.catalogueProducts ++ [row]
    currentCatalogueProductId := s.currentCatalogueProductId + 1 })

/-- Finds the first matching join row and deletes it (by its map key). -/
def removeProductFromCatalogue (s : Storage) (cid pid : Nat) : Bool × Storage :=
  match s.catalogueProducts.find? (fun cp => cp.catalogueId = cid ∧ cp.productId = pid) with
  | some cp =>
    (true, { s with catalogueProducts := s.catalogueProducts.filter (·.id ≠ cp.id) })
  | none => (false, s)

def getOrders (s : Storage) (uid : Nat) : List Order := s.orders.filter (·.userId = uid)

def getOrderByOrderId (s : Storage) (oid : String) : Option Order :=
  s.orders.find? (·.orderId = oid)

def getOrdersByEmail (s : Storage) (email : String) : List Order :=
  s.orders.filter (·.retailerEmail = email)

/-- Model of `x || d` on JavaScript strings: empty string and absence both fall back. -/
def jsOrDefault (v : Option String) (d : String) : String :=
  match v with
  | some x => if x = "" then d else x
  | none => d

/-- Model of `String.prototype.toUpperCase()` on the ASCII range. -/
def jsToUpperCase (s : String) : String := ⟨s.toList.map Char.toUpper⟩

structure InsertOrder where
  userId : Nat
  orderId : Option String := none
  catalogueId : Option Nat := none
  retailerName : String
  retailerEmail : String
  retailerCompany : Option String := none
  items : String
  amount : NumOrStr
  paymentStatus : Option String := none
deriving DecidableEq, Repr

/-- Model of `MemStorage.createOrder`; `rand` is the `nanoid(6)` draw used when the
caller supplies no orderId. -/
def createOrder (s : Storage) (ins : InsertOrder) (rand : String) (now : Nat) :
    Order × Storage :=
  let order : Order :=
    { id := s.currentOrderId
      userId := ins.userId
      orderId := jsOrDefault ins.orderId ("ORD-" ++ jsToUpperCase rand)
      catalogueId := ins.catalogueId
      retailerName := ins.retailerName
      retailerEmail := ins.retailerEmail
      retailerCompany := jsOrDefault ins.retailerCompany ""
      items := ins.items
      amount := ins.amount.asString
      paymentStatus := jsOrDefault ins.paymentStatus "pending"
      orderDate := now }
  (order, { s with orders := s.orders ++ [order], currentOrderId := s.currentOrderId + 1 })

def updateOrderPaymentStatus (s : Storage) (oid : String) (st : String) :
    Option Order × Storage :=
  match s.orders.find? (·.orderId = oid) with
  | some o =>
    let o' := { o with paymentStatus := st }
    (some o', { s with orders := s.orders.map (fun x => if x.id = o.id then o' else x) })
  | none => (none, s)

structure InsertAccessRequest where
  catalogueId : Nat
  name : String
  email : String
  company : String
  message : Option String := none
  status : Option String := none
deriving DecidableEq, Repr

def createAccessRequest (s : Storage) (ins : InsertAccessRequest) (now : Nat) :
    Nat × Storage :=
  let id := s.currentAccessRequestId
  let ar : AccessRequest :=
    { id := id
      catalogueId := ins.catalogueId
      name := ins.name
      email := ins.email
      company := ins.company
      message := ins.message
      status := jsOrDefault ins.status "pending"
      requestDate := now }
  (id, { s with
    accessRequests := s.accessRequests ++ [ar]
    currentAccessRequestId := id + 1 })

def getAccessRequest (s : Storage) (id : Nat) : Option AccessRequest :=
  s.accessRequests.find? (·.id = id)

def getAccessRequestByEmail (s : Storage) (cid : Nat) (email : String) :
    Option AccessRequest :=
  s.accessRequests.find? (fun r => r.catalogueId = cid ∧ r.email = email)

def updateAccessRequest (s : Storage) (id : Nat) (status : String) : Bool × Storage :=
  match s.accessRequests.find? (·.id = id) with
  | none => (false, s)
  | some _ =>
    (true, { s with accessRequests :=
      s.accessRequests.map (fun r => if r.id = id then { r with status := status } else r) })

/-! ## JavaScript value helpers used by the handlers -/

/-- Truthiness of an optional string body field (`!x` in JS). -/
def jsTruthy (v : Option String) : Bool :=
  match v with
  | some x => x ≠ ""
  | none => false

def jsStr (v : Option String) : String := v.getD ""

/-- JS truthiness of a parsed JSON value. -/
def jTruthy : JVal → Bool
  | .jnull => false
  | .jbool b => b
  | .jnum n => n ≠ 0
  | .jstr s => s ≠ []
  | .jarr _ => true
  | .jobj _ => true

/-- Property access on a parsed JSON value (later duplicate keys win, as in
`JSON.parse`); `none` is `undefined`. -/
def jget (v : JVal) (k : List Char) : Option JVal :=
  match v with
  | .jobj fs => fs.foldl (fun acc kv => if kv.1 = k then some kv.2 else acc) none
  | _ => none

def jFieldTruthy (v : JVal) (k : List Char) : Bool :=
  match jget v k with
  | some x => jTruthy x
  | none => false

/-- Model of `catalogue.id !== tokenData.catalogueId` (strict equality against a number). -/
def jFieldNumEq (v : JVal) (k : List Char) (n : Nat) : Bool :=
  match jget v k with
  | some (.jnum m) => m = (n : Int)
  | _ => false

/-- Model of `tokenData.exp < Date.now()` (numeric comparison; non-numeric `exp` values
compare as NaN, i.e. not less). -/
def jFieldNumLt (v : JVal) (k : List Char) (now : Nat) : Bool :=
  match jget v k with
  | some (.jnum e) => e < (now : Int)
  | _ => false

/-- Model of `order.retailerEmail !== tokenData.email`: a string field strictly equals
only a string value. -/
def jFieldStrEq (v : JVal) (k : List Char) (s : String) : Bool :=
  match jget v k with
  | some (.jstr e) => String.mk e = s
  | _ => false

/-- Model of `tokenData.email` used as a lookup key: only a string matches any
`retailerEmail`. -/
def jFieldStr (v : JVal) (k : List Char) : Option String :=
  match jget v k with
  | some (.jstr e) => some (String.mk e)
  | _ => none

/-- Model of `authHeader && authHeader.startsWith('Bearer ')`, returning the token
(`authHeader.substring(7)`). -/
def bearerToken (auth : Option String) : Option String :=
  match auth with
  | some h => if h.toList.take 7 = "Bearer ".toList then some ⟨h.toList.drop 7⟩ else none
  | none => none

/-- A JavaScript id from a JSON body: a number or a string. -/
inductive IdVal where
  | num : Nat → IdVal
  | str : String → IdVal
deriving DecidableEq, Repr

/-- Model of `parseInt(productId)`: numbers pass through, strings take their leading
digits, otherwise NaN (`none`). -/
def parseIntIdVal : IdVal → Option Nat
  | .num n => some n
  | .str s => parseIntStr s

/-- Model of `ids.includes(str)` under strict equality: numbers never equal a string. -/
def includesStr (ids : List IdVal) (s : String) : Bool :=
  ids.any (fun v =>
    match v with
    | .num _ => false
    | .str t => t = s)

/-! ## Route handlers (`registerRoutes`) -/

/-- HTTP responses the modelled handlers produce. -/
inductive HResp where
  | err : Nat → String → HResp
  | okProduct : Product → HResp
  | okCatalogueFull : Catalogue → List Product → HResp
  | okCatalogue : Catalogue → HResp
  | noContent : HResp
  | okOrder : Order → HResp
  | createdOrder : Order → HResp
  | okOrders : List Order → HResp
  | okView : Catalogue → List Product → Nat → String → String → Option String → Nat → HResp
  | createdAccess : Nat → String → HResp
  | okGranted : Bool → Option String → HResp
  | okRetailerInfo : String → String → String → HResp
  | okIdStatus : Nat → String → HResp
  | okEmpty : HResp
deriving DecidableEq, Repr

def HResp.status : HResp → Nat
  | .err s _ => s
  | .noContent => 204
  | .createdOrder _ => 201
  | .createdAccess _ _ => 201
  | _ => 200

/-- Model of `GET /api/products/:id` for an authenticated user `uid`. -/
def getProductH (s : Storage) (uid pid : Nat) : HResp × Storage :=
  match getProduct s pid with
  | none => (.err 404 "Product not found", s)
  | some p =>
    if p.userId ≠ uid then (.err 403 "Unauthorized", s)
    else (.okProduct p, s)

/-- Model of `PUT /api/products/:id`. -/
def putProductH (s : Storage) (uid pid : Nat) (u : ProductUpdate) : HResp × Storage :=
  match getProduct s pid with
  | none => (.err 404 "Product not found", s)
  | some p =>
    if p.userId ≠ uid then (.err 403 "Unauthorized", s)
    else
      let r := updateProduct s pid u
      (match r.1 with
       | some p' => .okProduct p'
       | none => .okEmpty, r.2)

/-- Model of `DELETE /api/products/:id`. -/
def deleteProductH (s : Storage) (uid pid : Nat) : HResp × Storage :=
  match getProduct s pid with
  | none => (.err 404 "Product not found", s)
  | some p =>
    if p.userId ≠ uid then (.err 403 "Unauthorized", s)
    else (.noContent, (deleteProduct s pid).2)

/-- Model of `GET /api/catalogues/:id`. -/
def getCatalogueH (s : Storage) (uid cid : Nat) : HResp × Storage :=
  match getCatalogue s cid with
  | none => (.err 404 "Catalogue not found", s)
  | some c =>
    if c.userId ≠ uid then (.err 403 "Unauthorized", s)
    else (.okCatalogueFull c (getCatalogueProducts s cid), s)

/-- Request body of `PUT /api/catalogues/:id`: the validated update fields plus
the raw `productIds` array when present. -/
structure PutCatalogueBody where
  update : CatalogueUpdate := {}
  productIds : Option (List IdVal) := none
deriving DecidableEq, Repr

/-- One step of the add loop in `PUT /api/catalogues/:id`. -/
def addStep (uid cid : Nat) (currentIds : List Nat) (s : Storage) (pid : IdVal) : Storage :=
  match parseIntIdVal pid with
  | none => s
  | some n =>
    if currentIds.contains n then s
    else
      match getProduct s n with
      | some p => if p.userId = uid then (addProductToCatalogue s cid p.id).2 else s
      | none => s

/-- One step of the removal loop: a current product is removed when the body's
`productIds` does not `includes` its `toString()` (strict equality, so numeric
body ids never match). -/
def removeStep (cid : Nat) (bodyIds : List IdVal) (s : Storage) (curId : Nat) : Storage :=
  if includesStr bodyIds (natToString curId) then s
  else (removeProductFromCatalogue s cid curId).2

/-- Model of `PUT /api/catalogues/:id`: fields update (with `userId` stripped), then the
product sync loops; the response carries the catalogue as updated before the
sync. -/
def putCatalogueH (s : Storage) (uid cid : Nat) (body : PutCatalogueBody) :
    HResp × Storage :=
  match getCatalogue s cid with
  | none => (.err 404 "Catalogue not found", s)
  | some cat =>
    if cat.userId ≠ uid then (.err 403 "Unauthorized", s)
    else
      let upd := { body.update with userId := none }
      let r := updateCatalogue s cid upd
      let resp := match r.1 with
        | some c' => HResp.okCatalogue c'
        | none => HResp.okEmpty
      match body.productIds with
      | none => (resp, r.2)
      | some ids =>
        let currentIds := (getCatalogueProducts r.2 cid).map (·.id)
        let s2 := ids.foldl (addStep uid cid currentIds) r.2
        let s3 := currentIds.foldl (removeStep cid ids) s2
        (resp, s3)

/-- Model of `DELETE /api/catalogues/:id`. -/
def deleteCatalogueH (s : Storage) (uid cid : Nat) : HResp × Storage :=
  match getCatalogue s cid with
  | none => (.err 404 "Catalogue not found", s)
  | some c =>
    if c.userId ≠ uid then (.err 403 "Unauthorized", s)
    else (.noContent, (deleteCatalogue s cid).2)

/-- Model of `GET /api/orders/:orderId`. -/
def getOrderH (s : Storage) (uid : Nat) (oid : String) : HResp × Storage :=
  match getOrderByOrderId s oid with
  | none => (.err 404 "Order not found", s)
  | some o =>
    if o.userId ≠ uid then (.err 403 "Unauthorized", s)
    else (.okOrder o, s)

/-- Model of `PUT /api/orders/:orderId/status`. -/
def putOrderStatusH (s : Storage) (uid : Nat) (oid : String)
    (paymentStatus : Option String) : HResp × Storage :=
  if ¬ jsTruthy paymentStatus then (.err 400 "Payment status is required", s)
  else
    match getOrderByOrderId s oid with
    | none => (.err 404 "Order not found", s)
    | some o =>
      if o.userId ≠ uid then (.err 403 "Unauthorized", s)
      else
        let r := updateOrderPaymentStatus s oid (jsStr paymentStatus)
        (match r.1 with
         | some o' => .okOrder o'
         | none => .okEmpty, r.2)

/-- Model of `POST /api/orders` (no authentication; `rand` is the `nanoid(6)` draw). -/
def postOrderH (s : Storage) (body : InsertOrder) (rand : String) (now : Nat) :
    HResp × Storage :=
  let orderId := "ORD-" ++ jsToUpperCase rand
  let r := createOrder s { body with orderId := some orderId } rand now
  (.createdOrder r.1, r.2)

/-- Model of `POST /api/shared/:link/request-access`. -/
def requestAccessH (s : Storage) (link : String)
    (name email company message : Option String) (now : Nat) : HResp × Storage :=
  if ¬ (jsTruthy name ∧ jsTruthy email ∧ jsTruthy company) then
    (.err 400 "Missing required fields", s)
  else
    match getCatalogueByLink s link with
    | none => (.err 404 "Catalogue not found", s)
    | some cat =>
      let r := createAccessRequest s
        { catalogueId := cat.id
          name := jsStr name
          email := jsStr email
          company := jsStr company
          message := some (jsOrDefault message "")
          status := some "pending" } now
      (.createdAccess r.1 "pending", r.2)

/-- Model of `POST /api/shared/:link/check-access`; on approval mints
`btoa(JSON.stringify({catalogueId, email, exp: Date.now() + 7*24*60*60*1000}))`. -/
def checkAccessH (s : Storage) (link : String) (email : Option String) (now : Nat) :
    HResp × Storage :=
  if ¬ jsTruthy email then (.err 400 "Email is required", s)
  else
    match getCatalogueByLink s link with
    | none => (.err 404 "Catalogue not found", s)
    | some cat =>
      match getAccessRequestByEmail s cat.id (jsStr email) with
      | none => (.err 404 "Access request not found", s)
      | some ar =>
        if ar.status = "approved" then
          (.okGranted true (some (tokenEncode cat.id (jsStr email) (now + 604800000))), s)
        else
          (.okGranted false none, s)

/-- Model of `POST /api/shared/:link/retailer-info`. -/
def retailerInfoH (s : Storage) (link : String) (email : Option String)
    (auth : Option String) (now : Nat) : HResp × Storage :=
  match bearerToken auth with
  | none => (.err 401 "Unauthorized", s)
  | some token =>
    match tokenParse token with
    | none => (.err 401 "Invalid token format", s)
    | some v =>
      if ¬ (jTruthy v ∧ jFieldTruthy v "catalogueId".toList ∧ jFieldTruthy v "exp".toList) then
        (.err 401 "Invalid token format", s)
      else if jFieldNumLt v "exp".toList now then (.err 401 "Token expired", s)
      else
        match getCatalogueByLink s link with
        | none => (.err 404 "Catalogue not found", s)
        | some cat =>
          if ¬ jFieldNumEq v "catalogueId".toList cat.id then
            (.err 404 "Catalogue not found", s)
          else
            match getAccessRequestByEmail s cat.id (jsStr email) with
            | none => (.err 404 "Access request not found or not approved", s)
            | some ar =>
              if ar.status ≠ "approved" then
                (.err 404 "Access request not found or not approved", s)
              else (.okRetailerInfo ar.name ar.email ar.company, s)

/-- Model of `GET /api/shared/:link/orders`: the token is only required to JSON-parse;
no expiry or catalogue check. -/
def sharedOrdersH (s : Storage) (link : String) (auth : Option String) :
    HResp × Storage :=
  match bearerToken auth with
  | none => (.err 401 "Unauthorized", s)
  | some token =>
    match tokenParse token with
    | none => (.err 401 "Invalid token", s)
    | some v =>
      match getCatalogueByLink s link with
      | none => (.err 404 "Catalogue not found", s)
      | some _ =>
        let orders := match jFieldStr v "email".toList with
          | some e => getOrdersByEmail s e
          | none => []
        (.okOrders orders, s)

/-- Model of `PUT /api/shared/:link/orders/:orderId/payment-status`: again only a
JSON-parsable token; ownership is `order.retailerEmail === token.email`. -/
def sharedPayStatusH (s : Storage) (link : String) (oid : String) (status : String)
    (auth : Option String) : HResp × Storage :=
  match bearerToken auth with
  | none => (.err 401 "Unauthorized", s)
  | some token =>
    match tokenParse token with
    | none => (.err 401 "Invalid token", s)
    | some v =>
      match getOrderByOrderId s oid with
      | none => (.err 404 "Order not found", s)
      | some o =>
        if ¬ jFieldStrEq v "email".toList o.retailerEmail then (.err 403 "Unauthorized", s)
        else
          let r := updateOrderPaymentStatus s oid status
          (match r.1 with
           | some o' => .okOrder o'
           | none => .okEmpty, r.2)

/-- Model of `GET /api/shared/:link/view`: full token validation, then the view counter
increment, then the catalogue + products + distributor-without-password
response.  The `okView` payload carries the pre-increment catalogue, the
products, and the distributor's fields (id, username, email, company,
createdAt) — the spread `const { password, ...userInfo } = user` drops the
password. -/
def sharedViewH (s : Storage) (link : String) (auth : Option String) (now : Nat) :
    HResp × Storage :=
  match bearerToken auth with
  | none => (.err 401 "Unauthorized - Missing or invalid authorization header", s)
  | some token =>
    match tokenParse token with
    | none => (.err 401 "Invalid token format", s)
    | some v =>
      if ¬ (jTruthy v ∧ jFieldTruthy v "catalogueId".toList ∧ jFieldTruthy v "exp".toList) then
        (.err 401 "Invalid token format", s)
      else if jFieldNumLt v "exp".toList now then (.err 401 "Token expired", s)
      else
        match getCatalogueByLink s link with
        | none => (.err 404 "Catalogue not found", s)
        | some cat =>
          if ¬ jFieldNumEq v "catalogueId".toList cat.id then
            (.err 401 "Invalid token for this catalogue", s)
          else
            let s1 := incrementCatalogueViews s cat.id
            let products := getCatalogueProducts s1 cat.id
            match getUser s1 cat.userId with
            | none => (.err 404 "Distributor not found", s1)
            | some u =>
              (.okView cat products u.id u.username u.email u.company u.createdAt, s1)

/-- Model of `PUT /api/access-requests/:id`. -/
def putAccessRequestH (s : Storage) (uid rid : Nat) (status : Option String) :
    HResp × Storage :=
  if ¬ (jsTruthy status ∧ (jsStr status = "approved" ∨ jsStr status = "rejected")) then
    (.err 400 "Invalid status", s)
  else
    match getAccessRequest s rid with
    | none => (.err 404 "Access request not found", s)
    | some ar =>
      match getCatalogue s ar.catalogueId with
      | none => (.err 404 "Catalogue not found", s)
      | some cat =>
        if cat.userId ≠ uid then (.err 403 "Unauthorized", s)
        else
          let r := updateAccessRequest s rid (jsStr status)
          (.okIdStatus rid (jsStr status), r.2)

/-! ## nanoid model

`nanoid` is the third-party id generator; its default draw uses the url
alphabet below (`A-Za-z0-9_-`), one uniformly chosen character per position.
Handlers take the drawn string as a parameter constrained to this shape. -/

def nanoidAlphabet : List Char :=
  "useandom-26T198340PX75pxJACKVERYMINDBUSHWOLF_GQZbfghjklqvwyzrict".toList

def isNanoidOutput (r : String) (len : Nat) : Prop :=
  r.length = len ∧ ∀ c ∈ r.toList, c ∈ nanoidAlphabet

instance (r : String) (len : Nat) : Decidable (isNanoidOutput r len) := by
  unfold isNanoidOutput
  infer_instance

/-- The character class `[A-Z0-9]` of the claimed `ORD-[A-Z0-9]{6}` pattern. -/
def isAZ09 (c : Char) : Bool :=
  (65 ≤ c.toNat ∧ c.toNat ≤ 90) ∨ (48 ≤ c.toNat ∧ c.toNat ≤ 57)

/-- The characters `nanoid(6).toUpperCase()` can actually produce:
`[A-Z0-9_-]`. -/
def isUpperNanoidChar (c : Char) : Bool :=
  (65 ≤ c.toNat ∧ c.toNat ≤ 90) ∨ (48 ≤ c.toNat ∧ c.toNat ≤ 57) ∨ c = '-' ∨ c = '_'

/-- Model of `s` matches `ORD-` followed by six characters satisfying `cls`. -/
def matchesOrd (cls : Char → Bool) (s : String) : Bool :=
  s.toList.take 4 = "ORD-".toList ∧ (s.toList.drop 4).length = 6 ∧
    (s.toList.drop 4).all cls

/-! ## Concrete states for witnesses and counterexamples -/

def wUser1 : User :=
  { id := 1, username := "dist", password := "secret-hash", email := "d@x.com",
    company := none, createdAt := 0 }

def wUser2 : User :=
  { id := 2, username := "other", password := "other-hash", email := "o@x.com",
    company := none, createdAt := 0 }

def wProduct (pid uid : Nat) : Product :=
  { id := pid, userId := uid, name := "p", description := none, price := "1",
    imageUrl := none, category := none, inStock := none, createdAt := 0 }

def wCatalogue (cid uid : Nat) : Catalogue :=
  { id := cid, userId := uid, name := "cat", description := none,
    shareableLink := "catalogue-abc", isPublic := none, views := 0, createdAt := 0 }

def wOrder (oid : String) (uid : Nat) : Order :=
  { id := 1, userId := uid, orderId := oid, catalogueId := some 1,
    retailerName := "R", retailerEmail := "r@x.com", retailerCompany := "",
    items := "[]", amount := "5", paymentStatus := "pending", orderDate := 0 }

def wAccessRequest (rid cid : Nat) (status : String) : AccessRequest :=
  { id := rid, catalogueId := cid, name := "R", email := "r@x.com", company := "Co",
    message := none, status := status, requestDate := 0 }

/-- Base empty storage. -/
def emptyStorage : Storage :=
  { users := [], products := [], catalogues := [], catalogueProducts := [],
    orders := [], accessRequests := [], currentUserId := 1, currentProductId := 1,
    currentCatalogueId := 1, currentCatalogueProductId := 1, currentOrderId := 1,
    currentAccessRequestId := 1 }

/-- State for the ownership witness: every entity belongs to user 2; the
requests are issued by user 1. -/
def c2State : Storage :=
  { emptyStorage with
    users := [wUser1, wUser2]
    products := [wProduct 1 2]
    catalogues := [wCatalogue 1 2]
    orders := [wOrder "ORD-AAAAAA" 2]
    currentUserId := 3, currentProductId := 2, currentCatalogueId := 2,
    currentOrderId := 2 }

/-- State for the shared-catalogue claims: one distributor, one catalogue. -/
def sharedState : Storage :=
  { emptyStorage with
    users := [wUser1]
    catalogues := [wCatalogue 1 1]
    currentUserId := 2, currentCatalogueId := 2 }

/-- Model of `sharedState` with an approved access request for `r@x.com`. -/
def approvedState : Storage :=
  { sharedState with
    accessRequests := [wAccessRequest 1 1 "approved"]
    currentAccessRequestId := 2 }

/-- Model of `sharedState` with a pending access request for `r@x.com`. -/
def pendingState : Storage :=
  { sharedState with
    accessRequests := [wAccessRequest 1 1 "pending"]
    currentAccessRequestId := 2 }

/-- State for the catalogue product-sync claims: three products owned by the
requesting user, an empty catalogue. -/
def c6State : Storage :=
  { emptyStorage with
    users := [wUser1]
    products := [wProduct 1 1, wProduct 2 1, wProduct 3 1]
    catalogues := [wCatalogue 1 1]
    currentUserId := 2, currentProductId := 4, currentCatalogueId := 2 }

/-- An expired token for catalogue 1 (exp 50, i.e. before now = 100). -/
def expiredTok : String := tokenEncode 1 "r@x.com" 50

/-- A token for catalogue 2 (mismatching catalogue 1), far from expiry. -/
def mismatchTok : String := tokenEncode 2 "r@x.com" 1000000

/-- A valid token for catalogue 1, far from expiry. -/
def validTok : String := tokenEncode 1 "r@x.com" 1000000

/-! ## Claim C2: ownership checks -/

def c5Body : InsertOrder :=
  { userId := 1, retailerName := "R", retailerEmail := "r@x.com", items := "[]",
    amount := .num 5 }

def c5Order : Order :=
  { id := 1, userId := 1, orderId := "ORD-ABC_DE", catalogueId := none,
    retailerName := "R", retailerEmail := "r@x.com", retailerCompany := "",
    items := "[]", amount := "5", paymentStatus := "pending", orderDate := 0 }

/-- The (id, owner) projection of the catalogue table. -/
def catalogueOwners (s : Storage) : List (Nat × Nat) :=
  s.catalogues.map (fun c => (c.id, c.userId))

/-- The parsed payload of `validTok`. -/
def validTokVal : JVal := payloadJVal 1 "r@x.com".toList 1000000

/-- Replace one user's password hash. -/
def setUserPassword (s : Storage) (uid : Nat) (pw : String) : Storage :=
  { s with users :=
      s.users.map (fun u => if u.id = uid then { u with password := pw } else u) }

/-- The join rows of one catalogue. -/
def rowsFor (s : Storage) (cid : Nat) : List CatalogueProduct :=
  s.catalogueProducts.filter (·.catalogueId = cid)

/-- The ids of the products currently associated with the catalogue. -/
def pidsOf (s : Storage) (cid : Nat) : List Nat :=
  (getCatalogueProducts s cid).map (·.id)

/-- Map-representation and referential invariants of the store around one
catalogue (unique row keys, fresh key counter, one join row per product, join
rows reference existing products) — the state shape every run of the system
maintains (§3 of the spec assumes the referential part). -/
def syncWF (s : Storage) (cid : Nat) : Prop :=
  (s.catalogueProducts.map (·.id)).Nodup ∧
  (∀ cp ∈ s.catalogueProducts, cp.id < s.currentCatalogueProductId) ∧
  ((rowsFor s cid).map (·.productId)).Nodup ∧
  (∀ cp ∈ rowsFor s cid, (getProduct s cp.productId).isSome = true)

/-! ## Theorems -/

theorem digitChar_isDigit {n : Nat} (h : n < 10) : isDigit (digitChar n) = true := by
  interval_cases n <;> decide

theorem digitVal_digitChar {n : Nat} (h : n < 10) : digitVal (digitChar n) = n := by
  interval_cases n <;> decide

theorem natToCharsAux_ne_nil (fuel n : Nat) (h : n < fuel) : natToCharsAux fuel n ≠ [] := by
  cases fuel with
  | zero => omega
  | succ f =>
    rw [natToCharsAux]
    split
    · simp
    · simp

theorem natToChars_ne_nil (n : Nat) : natToChars n ≠ [] :=
  natToCharsAux_ne_nil (n + 1) n (by omega)

theorem natToCharsAux_all_digits (fuel : Nat) :
    ∀ n, n < fuel → ∀ c ∈ natToCharsAux fuel n, isDigit c = true := by
  induction fuel with
  | zero => omega
  | succ f ih =>
    intro n hn
    rw [natToCharsAux]
    split
    · intro c hc
      rw [List.mem_singleton] at hc
      subst hc
      exact digitChar_isDigit (by omega)
    · intro c hc
      rw [List.mem_append] at hc
      rcases hc with hc | hc
      · exact ih (n / 10) (by omega) c hc
      · rw [List.mem_singleton] at hc
        subst hc
        exact digitChar_isDigit (Nat.mod_lt _ (by omega))

theorem natToChars_all_digits (n : Nat) : ∀ c ∈ natToChars n, isDigit c = true :=
  natToCharsAux_all_digits (n + 1) n (by omega)

theorem digitsVal_append (xs ys : List Char) :
    digitsVal (xs ++ ys) = ys.foldl (fun a c => a * 10 + digitVal c) (digitsVal xs) := by
  simp [digitsVal, List.foldl_append]

theorem digitsVal_natToCharsAux (fuel : Nat) :
    ∀ n, n < fuel → digitsVal (natToCharsAux fuel n) = n := by
  induction fuel with
  | zero => omega
  | succ f ih =>
    intro n hn
    rw [natToCharsAux]
    split
    · next h =>
      simp [digitsVal, digitVal_digitChar h]
    · next h =>
      rw [digitsVal_append, ih (n / 10) (by omega)]
      simp [digitVal_digitChar (Nat.mod_lt n (by omega))]
      omega

theorem digitsVal_natToChars (n : Nat) : digitsVal (natToChars n) = n :=
  digitsVal_natToCharsAux (n + 1) n (by omega)

theorem takeWhile_all_append {p : Char → Bool} {xs : List Char} (h : ∀ c ∈ xs, p c = true)
    {c : Char} (hc : p c = false) (rest : List Char) :
    (xs ++ c :: rest).takeWhile p = xs ∧ (xs ++ c :: rest).dropWhile p = c :: rest := by
  induction xs with
  | nil => simp [List.takeWhile, List.dropWhile, hc]
  | cons x xs ih =>
    have hx : p x = true := h x (by simp)
    have ih' := ih (fun d hd => h d (by simp [hd]))
    simp [List.takeWhile, List.dropWhile, hx, ih'.1, ih'.2]

theorem parseNatChars_natToChars (n : Nat) {c : Char} (hc : isDigit c = false)
    (rest : List Char) :
    parseNatChars (natToChars n ++ c :: rest) = some (n, c :: rest) := by
  have h := takeWhile_all_append (natToChars_all_digits n) hc rest
  simp only [parseNatChars, h.1, h.2]
  rw [if_neg (by simp [List.isEmpty_iff, natToChars_ne_nil n])]
  rw [digitsVal_natToChars]

/-! ## JSON string escaping (JSON.stringify) and string parsing (JSON.parse) -/

theorem hexVal_hexDigit {n : Nat} (h : n < 16) : hexVal (hexDigit n) = some n := by
  interval_cases n <;> decide

theorem charOfNat?_toNat (c : Char) : charOfNat? c.toNat = some c := by
  have hv : c.toNat.isValidChar := c.valid
  simp only [charOfNat?, dif_pos hv]
  congr 1
  exact Char.ofNat_toNat c

theorem parseJString_quote (rest : List Char) :
    parseJString ('"' :: rest) = some ([], rest) := by
  rw [parseJString.eq_def]
  simp

theorem parseJString_plain {c : Char} (h1 : ¬ c = '"') (h2 : ¬ c = '\\')
    (h3 : ¬ c.toNat < 32) (rest : List Char) :
    parseJString (c :: rest) = (parseJString rest).map (fun p => (c :: p.1, p.2)) := by
  rw [parseJString.eq_def]
  simp only []
  rw [if_neg h1, if_neg h2, if_neg h3]

theorem parseJString_esc {e ch : Char}
    (h : (e = '"' ∧ ch = '"') ∨ (e = '\\' ∧ ch = '\\') ∨ (e = 'b' ∧ ch = '\x08') ∨
         (e = 't' ∧ ch = '\x09') ∨ (e = 'n' ∧ ch = '\x0a') ∨ (e = 'f' ∧ ch = '\x0c') ∨
         (e = 'r' ∧ ch = '\x0d')) (rest : List Char) :
    parseJString ('\\' :: e :: rest) = (parseJString rest).map (fun p => (ch :: p.1, p.2)) := by
  rcases h with ⟨rfl, rfl⟩ | ⟨rfl, rfl⟩ | ⟨rfl, rfl⟩ | ⟨rfl, rfl⟩ | ⟨rfl, rfl⟩ | ⟨rfl, rfl⟩ |
    ⟨rfl, rfl⟩ <;> (rw [parseJString.eq_def]; simp +decide only [reduceIte])

theorem parseJString_unicode {h1 h2 h3 h4 : Char} {v1 v2 v3 v4 : Nat} {ch : Char}
    (e1 : hexVal h1 = some v1) (e2 : hexVal h2 = some v2) (e3 : hexVal h3 = some v3)
    (e4 : hexVal h4 = some v4)
    (ec : charOfNat? (v1 * 4096 + v2 * 256 + v3 * 16 + v4) = some ch) (rest : List Char) :
    parseJString ('\\' :: 'u' :: h1 :: h2 :: h3 :: h4 :: rest) =
      (parseJString rest).map (fun p => (ch :: p.1, p.2)) := by
  rw [parseJString.eq_def]
  simp +decide only [reduceIte, e1, e2, e3, e4, ec]

/-- Parsing inverts escaping: the body parser consumes an escaped string up to
its closing quote and returns the original characters. -/
theorem parseJString_escapeChars (s : List Char) (rest : List Char) :
    parseJString (escapeChars s ++ '"' :: rest) = some (s, rest) := by
  induction s with
  | nil =>
    simp only [escapeChars, List.nil_bind, List.nil_append]
    exact parseJString_quote rest
  | cons c s ih =>
    have hstep : escapeChars (c :: s) = escapeChar c ++ escapeChars s := by
      simp [escapeChars]
    rw [hstep, List.append_assoc]
    unfold escapeChar
    by_cases hq : c = '"'
    · subst hq
      rw [if_pos rfl]
      show parseJString ('\\' :: '"' :: (escapeChars s ++ '"' :: rest)) = _
      rw [parseJString_esc (Or.inl ⟨rfl, rfl⟩), ih]
      rfl
    rw [if_neg hq]
    by_cases hb : c = '\\'
    · subst hb
      rw [if_pos rfl]
      show parseJString ('\\' :: '\\' :: (escapeChars s ++ '"' :: rest)) = _
      rw [parseJString_esc (Or.inr (Or.inl ⟨rfl, rfl⟩)), ih]
      rfl
    rw [if_neg hb]
    by_cases h3 : c = '\x08'
    · subst h3
      rw [if_pos rfl]
      show parseJString ('\\' :: 'b' :: (escapeChars s ++ '"' :: rest)) = _
      rw [parseJString_esc (Or.inr (Or.inr (Or.inl ⟨rfl, rfl⟩))), ih]
      rfl
    rw [if_neg h3]
    by_cases h4 : c = '\x09'
    · subst h4
      rw [if_pos rfl]
      show parseJString ('\\' :: 't' :: (escapeChars s ++ '"' :: rest)) = _
      rw [parseJString_esc (Or.inr (Or.inr (Or.inr (Or.inl ⟨rfl, rfl⟩)))), ih]
      rfl
    rw [if_neg h4]
    by_cases h5 : c = '\x0a'
    · subst h5
      rw [if_pos rfl]
      show parseJString ('\\' :: 'n' :: (escapeChars s ++ '"' :: rest)) = _
      rw [parseJString_esc (Or.inr (Or.inr (Or.inr (Or.inr (Or.inl ⟨rfl, rfl⟩))))), ih]
      rfl
    rw [if_neg h5]
    by_cases h6 : c = '\x0c'
    · subst h6
      rw [if_pos rfl]
      show parseJString ('\\' :: 'f' :: (escapeChars s ++ '"' :: rest)) = _
      rw [parseJString_esc (Or.inr (Or.inr (Or.inr (Or.inr (Or.inr (Or.inl ⟨rfl, rfl⟩)))))), ih]
      rfl
    rw [if_neg h6]
    by_cases h7 : c = '\x0d'
    · subst h7
      rw [if_pos rfl]
      show parseJString ('\\' :: 'r' :: (escapeChars s ++ '"' :: rest)) = _
      rw [parseJString_esc (Or.inr (Or.inr (Or.inr (Or.inr (Or.inr (Or.inr ⟨rfl, rfl⟩)))))), ih]
      rfl
    rw [if_neg h7]
    by_cases h8 : c.toNat < 32
    · rw [if_pos h8]
      have hhi : c.toNat / 16 < 16 := by omega
      have hlo : c.toNat % 16 < 16 := by omega
      have hrecon : 0 * 4096 + 0 * 256 + c.toNat / 16 * 16 + c.toNat % 16 = c.toNat := by
        omega
      have hu := @parseJString_unicode '0' '0' _ _ _ _ _ _ _
        (hexVal_hexDigit (show (0:Nat) < 16 by decide))
        (hexVal_hexDigit (show (0:Nat) < 16 by decide))
        (hexVal_hexDigit hhi) (hexVal_hexDigit hlo)
        (by rw [hrecon]; exact charOfNat?_toNat c) (escapeChars s ++ '"' :: rest)
      show parseJString ('\\' :: 'u' :: '0' :: '0' :: hexDigit (c.toNat / 16) :: hexDigit (c.toNat % 16) :: (escapeChars s ++ '"' :: rest)) = _
      rw [hu, ih]
      rfl
    · rw [if_neg h8]
      show parseJString (c :: (escapeChars s ++ '"' :: rest)) = _
      rw [parseJString_plain hq hb (by omega), ih]
      rfl

/-! ## JSON values and the JSON.parse model -/

theorem char_ne_of_toNat {c d : Char} (h : c.toNat ≠ d.toNat) : c ≠ d :=
  fun he => h (he ▸ rfl)

theorem skipWs_cons_of_not_ws {c : Char} (h : isWs c = false) (rest : List Char) :
    skipWs (c :: rest) = c :: rest := by
  simp [skipWs, h]

theorem isDigit_bounds {c : Char} (h : isDigit c = true) :
    48 ≤ c.toNat ∧ c.toNat ≤ 57 := by
  simpa [isDigit] using h

theorem isDigit_not_ws {c : Char} (h : isDigit c = true) : isWs c = false := by
  have hb := isDigit_bounds h
  have h1 : c ≠ ' ' := char_ne_of_toNat (by have e : (' ' : Char).toNat = 32 := rfl; omega)
  have h2 : c ≠ '\x09' := char_ne_of_toNat (by have e : ('\x09' : Char).toNat = 9 := rfl; omega)
  have h3 : c ≠ '\x0a' := char_ne_of_toNat (by have e : ('\x0a' : Char).toNat = 10 := rfl; omega)
  have h4 : c ≠ '\x0d' := char_ne_of_toNat (by have e : ('\x0d' : Char).toNat = 13 := rfl; omega)
  simp [isWs, h1, h2, h3, h4]

/-- A leading integer literal parses out of the front of the remaining input. -/
theorem parseJVal_natToChars (f n : Nat) {c : Char} (hc : isDigit c = false)
    (rest : List Char) :
    parseJVal (f + 1) (natToChars n ++ c :: rest) = some (JVal.jnum (n : Int), c :: rest) := by
  obtain ⟨d, ds, hd⟩ : ∃ d ds, natToChars n = d :: ds := by
    cases h : natToChars n with
    | nil => exact absurd h (natToChars_ne_nil n)
    | cons d ds => exact ⟨d, ds, rfl⟩
  have hdig : isDigit d = true := natToChars_all_digits n d (by rw [hd]; simp)
  have hb := isDigit_bounds hdig
  rw [hd, List.cons_append, parseJVal.eq_def]
  simp only []
  rw [skipWs_cons_of_not_ws (isDigit_not_ws hdig)]
  simp only []
  rw [if_neg (char_ne_of_toNat (by have e : ('"' : Char).toNat = 34 := rfl; omega)),
    if_neg (char_ne_of_toNat (by have e : ('\x7b' : Char).toNat = 123 := rfl; omega)),
    if_neg (char_ne_of_toNat (by have e : ('[' : Char).toNat = 91 := rfl; omega)),
    if_neg (char_ne_of_toNat (by have e : ('n' : Char).toNat = 110 := rfl; omega)),
    if_neg (char_ne_of_toNat (by have e : ('t' : Char).toNat = 116 := rfl; omega)),
    if_neg (char_ne_of_toNat (by have e : ('f' : Char).toNat = 102 := rfl; omega))]
  simp only [parseJInt]
  rw [if_neg (char_ne_of_toNat (by have e : ('-' : Char).toNat = 45 := rfl; omega))]
  rw [← List.cons_append, ← hd, parseNatChars_natToChars n hc]
  rfl

/-- A leading string literal parses out of the front of the remaining input. -/
theorem parseJVal_jStrLit (f : Nat) (s rest : List Char) :
    parseJVal (f + 1) (jStrLit s ++ rest) = some (JVal.jstr s, rest) := by
  have hshape : jStrLit s ++ rest = '"' :: (escapeChars s ++ '"' :: rest) := by
    simp [jStrLit]
  rw [hshape, parseJVal.eq_def]
  simp only []
  rw [skipWs_cons_of_not_ws (by decide)]
  simp [parseJString_escapeChars]

/-- One object member followed by a comma and further members. -/
theorem parseJMembers_cons (f : Nat) (k body r2 r3 : List Char) (v : JVal)
    (fs : List (List Char × JVal))
    (hv : parseJVal f body = some (v, ',' :: r2))
    (hm : parseJMembers f r2 = some (JVal.jobj fs, r3)) :
    parseJMembers (f + 1) (jStrLit k ++ ':' :: body) = some (JVal.jobj ((k, v) :: fs), r3) := by
  have hshape : jStrLit k ++ ':' :: body = '"' :: (escapeChars k ++ '"' :: ':' :: body) := by
    simp [jStrLit]
  rw [hshape, parseJMembers.eq_def]
  simp only []
  rw [skipWs_cons_of_not_ws (by decide)]
  simp +decide only [parseJString_escapeChars]
  rw [skipWs_cons_of_not_ws (by decide)]
  simp +decide only [hv]
  rw [skipWs_cons_of_not_ws (by decide)]
  simp +decide only [hm]

/-- The final object member, closed by a brace. -/
theorem parseJMembers_last (f : Nat) (k body r2 : List Char) (v : JVal)
    (hv : parseJVal f body = some (v, '\x7d' :: r2)) :
    parseJMembers (f + 1) (jStrLit k ++ ':' :: body) = some (JVal.jobj [(k, v)], r2) := by
  have hshape : jStrLit k ++ ':' :: body = '"' :: (escapeChars k ++ '"' :: ':' :: body) := by
    simp [jStrLit]
  rw [hshape, parseJMembers.eq_def]
  simp only []
  rw [skipWs_cons_of_not_ws (by decide)]
  simp +decide only [parseJString_escapeChars]
  rw [skipWs_cons_of_not_ws (by decide)]
  simp +decide only [hv]
  rw [skipWs_cons_of_not_ws (by decide)]
  simp +decide only []

/-- An object whose body starts with a key parses via `parseJMembers`. -/
theorem parseJVal_obj (f : Nat) (tail : List Char) :
    parseJVal (f + 1) ('\x7b' :: '"' :: tail) = parseJMembers f ('"' :: tail) := by
  rw [parseJVal.eq_def]
  simp only []
  rw [skipWs_cons_of_not_ws (by decide)]
  simp +decide [skipWs_cons_of_not_ws (show isWs '"' = false by decide)]

/-- The serialised token payload parses back to the payload object, for any
`fuel ≥ 5` as supplied by `jsonParse`. -/
theorem parseJVal_stringifyPayload (f cid exp : Nat) (email : List Char) :
    parseJVal (f + 5) (stringifyPayload cid email exp) =
      some (payloadJVal cid email exp, []) := by
  have hk1 : jStrLit "catalogueId".toList ++ ':' :: natToChars cid ++
      ',' :: jStrLit "email".toList ++ ':' :: jStrLit email ++
      ',' :: jStrLit "exp".toList ++ ':' :: natToChars exp ++ ['\x7d'] =
      jStrLit "catalogueId".toList ++ ':' :: (natToChars cid ++
      ',' :: (jStrLit "email".toList ++ ':' :: (jStrLit email ++
      ',' :: (jStrLit "exp".toList ++ ':' :: (natToChars exp ++ ['\x7d']))))) := by
    simp
  have hv3 : parseJVal (f + 1) (natToChars exp ++ '\x7d' :: ([] : List Char)) =
      some (JVal.jnum (exp : Int), '\x7d' :: ([] : List Char)) :=
    parseJVal_natToChars f exp (by decide) []
  have hm3 : parseJMembers (f + 2)
      (jStrLit "exp".toList ++ ':' :: (natToChars exp ++ ['\x7d'])) =
      some (JVal.jobj [("exp".toList, JVal.jnum (exp : Int))], []) :=
    parseJMembers_last (f + 1) _ _ _ _ hv3
  have hv2 : parseJVal (f + 2) (jStrLit email ++
      ',' :: (jStrLit "exp".toList ++ ':' :: (natToChars exp ++ ['\x7d']))) =
      some (JVal.jstr email, ',' :: (jStrLit "exp".toList ++ ':' :: (natToChars exp ++ ['\x7d']))) :=
    parseJVal_jStrLit (f + 1) email _
  have hm2 : parseJMembers (f + 3)
      (jStrLit "email".toList ++ ':' :: (jStrLit email ++
        ',' :: (jStrLit "exp".toList ++ ':' :: (natToChars exp ++ ['\x7d'])))) =
      some (JVal.jobj [("email".toList, JVal.jstr email),
        ("exp".toList, JVal.jnum (exp : Int))], []) :=
    parseJMembers_cons (f + 2) _ _ _ _ _ _ hv2 hm3
  have hv1 : parseJVal (f + 3) (natToChars cid ++
      ',' :: (jStrLit "email".toList ++ ':' :: (jStrLit email ++
        ',' :: (jStrLit "exp".toList ++ ':' :: (natToChars exp ++ ['\x7d']))))) =
      some (JVal.jnum (cid : Int), ',' :: (jStrLit "email".toList ++ ':' :: (jStrLit email ++
        ',' :: (jStrLit "exp".toList ++ ':' :: (natToChars exp ++ ['\x7d']))))) :=
    parseJVal_natToChars (f + 2) cid (by decide) _
  have hm1 : parseJMembers (f + 4)
      (jStrLit "catalogueId".toList ++ ':' :: (natToChars cid ++
        ',' :: (jStrLit "email".toList ++ ':' :: (jStrLit email ++
          ',' :: (jStrLit "exp".toList ++ ':' :: (natToChars exp ++ ['\x7d'])))))) =
      some (payloadJVal cid email exp, []) :=
    parseJMembers_cons (f + 3) _ _ _ _ _ _ hv1 hm2
  have hsplit : jStrLit "catalogueId".toList ++ ':' :: (natToChars cid ++
      ',' :: (jStrLit "email".toList ++ ':' :: (jStrLit email ++
        ',' :: (jStrLit "exp".toList ++ ':' :: (natToChars exp ++ ['\x7d']))))) =
      '"' :: (escapeChars "catalogueId".toList ++ '"' :: ':' :: (natToChars cid ++
      ',' :: (jStrLit "email".toList ++ ':' :: (jStrLit email ++
        ',' :: (jStrLit "exp".toList ++ ':' :: (natToChars exp ++ ['\x7d'])))))) := by
    simp [jStrLit]
  show parseJVal (f + 4 + 1) (stringifyPayload cid email exp) = _
  unfold stringifyPayload
  rw [hk1, hsplit, parseJVal_obj (f + 4), ← hsplit]
  exact hm1

/-! ## UTF-8 codec (Buffer.from(str) / buf.toString()) -/

theorem char_toNat_lt (c : Char) : c.toNat < 1114112 := by
  have h := c.valid
  rcases h with h | h <;> (simp only [Char.toNat]; omega)

theorem utf8EncodeChar_lt_256 (c : Char) : ∀ b ∈ utf8EncodeChar c, b < 256 := by
  have hlt := char_toNat_lt c
  intro b hb
  unfold utf8EncodeChar at hb
  split at hb
  · simp at hb
    omega
  · split at hb
    · simp at hb
      rcases hb with h | h <;> omega
    · split at hb
      · simp at hb
        rcases hb with h | h | h <;> omega
      · simp at hb
        rcases hb with h | h | h | h <;> omega

theorem utf8Encode_lt_256 (s : List Char) : ∀ b ∈ utf8Encode s, b < 256 := by
  intro b hb
  simp only [utf8Encode, List.mem_flatMap] at hb
  obtain ⟨c, _, hb⟩ := hb
  exact utf8EncodeChar_lt_256 c b hb

/-- The encoding of one character starts with a lead byte that `utf8DecodeStep`
decodes back, leaving exactly the appended bytes. -/
theorem utf8DecodeStep_encodeChar (c : Char) (bs : List Nat) :
    ∃ b tail, utf8EncodeChar c = b :: tail ∧ utf8DecodeStep b (tail ++ bs) = some (c, bs) := by
  have hlt := char_toNat_lt c
  unfold utf8EncodeChar
  by_cases h1 : c.toNat < 128
  · refine ⟨c.toNat, [], by rw [if_pos h1], ?_⟩
    simp only [List.nil_append, utf8DecodeStep]
    rw [if_pos h1, charOfNat?_toNat]
    rfl
  rw [if_neg h1]
  by_cases h2 : c.toNat < 2048
  · refine ⟨192 + c.toNat / 64, [128 + c.toNat % 64], by rw [if_pos h2], ?_⟩
    simp only [List.cons_append, List.nil_append, utf8DecodeStep]
    rw [if_neg (by omega), if_neg (by omega), if_pos (by omega)]
    rw [if_pos (by simp [isCont]; omega)]
    have hrecon : (192 + c.toNat / 64 - 192) * 64 + (128 + c.toNat % 64 - 128) = c.toNat := by
      omega
    rw [hrecon, charOfNat?_toNat]
    rfl
  rw [if_neg h2]
  by_cases h3 : c.toNat < 65536
  · refine ⟨224 + c.toNat / 4096, [128 + c.toNat / 64 % 64, 128 + c.toNat % 64],
      by rw [if_pos h3], ?_⟩
    simp only [List.cons_append, List.nil_append, utf8DecodeStep]
    rw [if_neg (by omega), if_neg (by omega), if_neg (by omega), if_pos (by omega)]
    rw [if_pos (by simp [isCont]; omega)]
    have hrecon : (224 + c.toNat / 4096 - 224) * 4096 + (128 + c.toNat / 64 % 64 - 128) * 64 +
        (128 + c.toNat % 64 - 128) = c.toNat := by
      omega
    rw [hrecon, charOfNat?_toNat]
    rfl
  rw [if_neg h3]
  refine ⟨240 + c.toNat / 262144,
    [128 + c.toNat / 4096 % 64, 128 + c.toNat / 64 % 64, 128 + c.toNat % 64], rfl, ?_⟩
  simp only [List.cons_append, List.nil_append, utf8DecodeStep]
  rw [if_neg (by omega), if_neg (by omega), if_neg (by omega), if_neg (by omega),
    if_pos (by omega)]
  rw [if_pos (by simp [isCont]; omega)]
  have hrecon : (240 + c.toNat / 262144 - 240) * 262144 + (128 + c.toNat / 4096 % 64 - 128) * 4096 +
      (128 + c.toNat / 64 % 64 - 128) * 64 + (128 + c.toNat % 64 - 128) = c.toNat := by
    omega
  rw [hrecon, charOfNat?_toNat]
  rfl

theorem utf8DecodeAux_encodeChar (f : Nat) (c : Char) (bs : List Nat) :
    utf8DecodeAux (f + 1) (utf8EncodeChar c ++ bs) = (utf8DecodeAux f bs).map (c :: ·) := by
  obtain ⟨b, tail, henc, hstep⟩ := utf8DecodeStep_encodeChar c bs
  rw [henc, List.cons_append]
  simp [utf8DecodeAux, hstep]

theorem utf8DecodeAux_encode (f : Nat) (s : List Char) :
    utf8DecodeAux (f + s.length) (utf8Encode s) = some s := by
  induction s generalizing f with
  | nil => simp [utf8Encode, utf8DecodeAux]
  | cons c s ih =>
    have hstep : utf8Encode (c :: s) = utf8EncodeChar c ++ utf8Encode s := by
      simp [utf8Encode]
    have hfuel : f + (c :: s).length = (f + s.length) + 1 := by
      simp [List.length_cons]
      omega
    rw [hstep, hfuel, utf8DecodeAux_encodeChar, ih]
    rfl

theorem utf8EncodeChar_ne_nil (c : Char) : utf8EncodeChar c ≠ [] := by
  unfold utf8EncodeChar
  split
  · simp
  split
  · simp
  split
  · simp
  · simp

theorem length_le_utf8Encode (s : List Char) : s.length ≤ (utf8Encode s).length := by
  induction s with
  | nil => simp [utf8Encode]
  | cons c s ih =>
    have hstep : utf8Encode (c :: s) = utf8EncodeChar c ++ utf8Encode s := by
      simp [utf8Encode]
    rw [hstep, List.length_append, List.length_cons]
    have hc : 1 ≤ (utf8EncodeChar c).length := by
      cases h : utf8EncodeChar c with
      | nil => exact absurd h (utf8EncodeChar_ne_nil c)
      | cons b tail => simp
    omega

theorem utf8Decode_utf8Encode (s : List Char) : utf8Decode (utf8Encode s) = some s := by
  unfold utf8Decode
  have hlen : (utf8Encode s).length = ((utf8Encode s).length - s.length) + s.length := by
    have := length_le_utf8Encode s
    omega
  rw [hlen, utf8DecodeAux_encode]

/-! ## Base64 codec (Buffer.toString('base64') / Buffer.from(_, 'base64')) -/

theorem b64Val_b64Char {n : Nat} (h : n < 64) : b64Val (b64Char n) = some n := by
  interval_cases n <;> decide

theorem b64Char_ne_eq {n : Nat} (h : n < 64) : b64Char n ≠ '=' := by
  interval_cases n <;> decide

/-- Decoding inverts encoding on byte lists. -/
theorem base64Decode_base64Encode (bs : List Nat) (hb : ∀ b ∈ bs, b < 256) :
    base64Decode (base64Encode bs) = some bs := by
  induction bs using base64Encode.induct with
  | case1 => simp [base64Encode, base64Decode]
  | case2 a =>
    have ha : a < 256 := hb a (by simp)
    have h1 : a / 4 < 64 := by omega
    have h2 : a % 4 * 16 < 64 := by omega
    have e0 : a / 4 * 4 + a % 4 * 16 / 16 = a := by omega
    rw [base64Encode, base64Decode, b64Val_b64Char h1, b64Val_b64Char h2]
    simp <;> omega
  | case3 a b =>
    have ha : a < 256 := hb a (by simp)
    have hbb : b < 256 := hb b (by simp)
    have h1 : a / 4 < 64 := by omega
    have h2 : a % 4 * 16 + b / 16 < 64 := by omega
    have h3 : b % 16 * 4 < 64 := by omega
    have e1 : a / 4 * 4 + (a % 4 * 16 + b / 16) / 16 = a := by omega
    have e2 : (a % 4 * 16 + b / 16) % 16 * 16 + b % 16 * 4 / 4 = b := by omega
    rw [base64Encode, base64Decode, b64Val_b64Char h1, b64Val_b64Char h2]
    simp only []
    rw [if_neg (b64Char_ne_eq h3), b64Val_b64Char h3]
    simp <;> omega
  | case4 a b d rest ih =>
    have ha : a < 256 := hb a (by simp)
    have hbb : b < 256 := hb b (by simp)
    have hd : d < 256 := hb d (by simp)
    have h1 : a / 4 < 64 := by omega
    have h2 : a % 4 * 16 + b / 16 < 64 := by omega
    have h3 : b % 16 * 4 + d / 64 < 64 := by omega
    have h4 : d % 64 < 64 := by omega
    have e1 : a / 4 * 4 + (a % 4 * 16 + b / 16) / 16 = a := by omega
    have e2 : (a % 4 * 16 + b / 16) % 16 * 16 + (b % 16 * 4 + d / 64) / 4 = b := by omega
    have e3 : (b % 16 * 4 + d / 64) % 4 * 64 + d % 64 = d := by omega
    rw [base64Encode, base64Decode, b64Val_b64Char h1, b64Val_b64Char h2]
    simp only []
    rw [if_neg (b64Char_ne_eq h3), b64Val_b64Char h3]
    simp only []
    rw [if_neg (b64Char_ne_eq h4), b64Val_b64Char h4]
    simp only []
    rw [ih (fun x hx => hb x (by simp [hx]))]
    simp <;> omega

/-! ## The complete token codec -/

theorem length_stringifyPayload (cid exp : Nat) (email : List Char) :
    6 ≤ (stringifyPayload cid email exp).length := by
  simp only [stringifyPayload, jStrLit, List.length_cons, List.length_append]
  omega

/-- The full token roundtrip: a token minted by check-access decodes back to
the JSON object carrying the original catalogueId, email, and expiry. -/
theorem tokenParse_tokenEncode (cid : Nat) (email : String) (exp : Nat) :
    tokenParse (tokenEncode cid email exp) = some (payloadJVal cid email.toList exp) := by
  unfold tokenParse tokenEncode
  rw [show (String.mk (base64Encode (utf8Encode (stringifyPayload cid email.toList exp)))).toList
      = base64Encode (utf8Encode (stringifyPayload cid email.toList exp)) from rfl]
  rw [base64Decode_base64Encode _ (utf8Encode_lt_256 _)]
  simp only []
  rw [utf8Decode_utf8Encode]
  simp only [jsonParse]
  have hlen := length_stringifyPayload cid exp email.toList
  have hfuel : (stringifyPayload cid email.toList exp).length + 1 =
      ((stringifyPayload cid email.toList exp).length - 4) + 5 := by
    omega
  rw [hfuel, parseJVal_stringifyPayload]
  rfl

/-! ## Data model (shared schema types) -/

/-- C2.  For every authenticated request by user `uid` to read, modify, or
delete a Product, Catalogue, or Order (GET/PUT/DELETE `/api/products/:id`,
GET/PUT/DELETE `/api/catalogues/:id`, GET `/api/orders/:orderId`,
PUT `/api/orders/:orderId/status`), if the target entity exists and its
`userId` differs from `uid`, the response is HTTP 403 "Unauthorized" and the
whole storage state is unchanged. -/
theorem C2_ownership_403 (s : Storage) (uid : Nat) :
    (∀ pid p, getProduct s pid = some p → p.userId ≠ uid →
      getProductH s uid pid = (.err 403 "Unauthorized", s)) ∧
    (∀ pid p u, getProduct s pid = some p → p.userId ≠ uid →
      putProductH s uid pid u = (.err 403 "Unauthorized", s)) ∧
    (∀ pid p, getProduct s pid = some p → p.userId ≠ uid →
      deleteProductH s uid pid = (.err 403 "Unauthorized", s)) ∧
    (∀ cid c, getCatalogue s cid = some c → c.userId ≠ uid →
      getCatalogueH s uid cid = (.err 403 "Unauthorized", s)) ∧
    (∀ cid c body, getCatalogue s cid = some c → c.userId ≠ uid →
      putCatalogueH s uid cid body = (.err 403 "Unauthorized", s)) ∧
    (∀ cid c, getCatalogue s cid = some c → c.userId ≠ uid →
      deleteCatalogueH s uid cid = (.err 403 "Unauthorized", s)) ∧
    (∀ oid o, getOrderByOrderId s oid = some o → o.userId ≠ uid →
      getOrderH s uid oid = (.err 403 "Unauthorized", s)) ∧
    (∀ oid o st, getOrderByOrderId s oid = some o → o.userId ≠ uid →
      jsTruthy st = true →
      putOrderStatusH s uid oid st = (.err 403 "Unauthorized", s)) := by
  refine ⟨?_, ?_, ?_, ?_, ?_, ?_, ?_, ?_⟩
  · intro pid p hfind howner
    simp [getProductH, hfind, howner]
  · intro pid p u hfind howner
    simp [putProductH, hfind, howner]
  · intro pid p hfind howner
    simp [deleteProductH, hfind, howner]
  · intro cid c hfind howner
    simp [getCatalogueH, hfind, howner]
  · intro cid c body hfind howner
    simp [putCatalogueH, hfind, howner]
  · intro cid c hfind howner
    simp [deleteCatalogueH, hfind, howner]
  · intro oid o hfind howner
    simp [getOrderH, hfind, howner]
  · intro oid o st hfind howner htr
    simp [putOrderStatusH, hfind, howner, htr]

/-- Witness for C2 at a concrete state: user 1 requesting user 2's product,
catalogue, and order. -/
theorem C2_ownership_403_witness :
    getProductH c2State 1 1 = (.err 403 "Unauthorized", c2State) ∧
    putProductH c2State 1 1 {} = (.err 403 "Unauthorized", c2State) ∧
    deleteProductH c2State 1 1 = (.err 403 "Unauthorized", c2State) ∧
    getCatalogueH c2State 1 1 = (.err 403 "Unauthorized", c2State) ∧
    putCatalogueH c2State 1 1 {} = (.err 403 "Unauthorized", c2State) ∧
    deleteCatalogueH c2State 1 1 = (.err 403 "Unauthorized", c2State) ∧
    getOrderH c2State 1 "ORD-AAAAAA" = (.err 403 "Unauthorized", c2State) ∧
    putOrderStatusH c2State 1 "ORD-AAAAAA" (some "paid") =
      (.err 403 "Unauthorized", c2State) := by
  obtain ⟨h1, h2, h3, h4, h5, h6, h7, h8⟩ := C2_ownership_403 c2State 1
  exact ⟨h1 1 (wProduct 1 2) (by decide) (by decide),
    h2 1 (wProduct 1 2) {} (by decide) (by decide),
    h3 1 (wProduct 1 2) (by decide) (by decide),
    h4 1 (wCatalogue 1 2) (by decide) (by decide),
    h5 1 (wCatalogue 1 2) {} (by decide) (by decide),
    h6 1 (wCatalogue 1 2) (by decide) (by decide),
    h7 "ORD-AAAAAA" (wOrder "ORD-AAAAAA" 2) (by decide) (by decide),
    h8 "ORD-AAAAAA" (wOrder "ORD-AAAAAA" 2) (some "paid") (by decide) (by decide)
      (by decide)⟩

/-! ## Claim C5: order id shape and default payment status -/

theorem nanoid_upper_class : ∀ c ∈ nanoidAlphabet, isUpperNanoidChar c.toUpper = true := by
  decide

/-- C5 counterexample.  `nanoid(6)` can draw `"abc_de"` (every character is in
its url alphabet), and the order created from it has
`orderId = "ORD-ABC_DE"`, which does not match `ORD-[A-Z0-9]{6}` ('_' is not
in `[A-Z0-9]`). -/
theorem C5_counterexample :
    isNanoidOutput "abc_de" 6 ∧
    (postOrderH sharedState c5Body "abc_de" 0).1 = .createdOrder c5Order ∧
    c5Order.orderId = "ORD-ABC_DE" ∧
    matchesOrd isAZ09 c5Order.orderId = false := by
  refine ⟨by decide, by decide, rfl, by decide⟩

/-- C5 as amended.  For every request body and every possible `nanoid(6)` draw,
`POST /api/orders` creates an order whose `orderId` is `ORD-` followed by
exactly six characters from `[A-Z0-9_-]` (the uppercase image of nanoid's url
alphabet), and when the body gives no `paymentStatus` the created order's
`paymentStatus` is `"pending"`. -/
theorem C5_orderId_amended (s : Storage) (body : InsertOrder) (rand : String)
    (now : Nat) (h : isNanoidOutput rand 6) :
    ∃ o, (postOrderH s body rand now).1 = .createdOrder o ∧
      matchesOrd isUpperNanoidChar o.orderId = true ∧
      (body.paymentStatus = none → o.paymentStatus = "pending") := by
  obtain ⟨hlen, halpha⟩ := h
  refine ⟨(createOrder s { body with orderId := some ("ORD-" ++ jsToUpperCase rand) }
    rand now).1, rfl, ?_, ?_⟩
  · have hne : ("ORD-" ++ jsToUpperCase rand) ≠ "" := by
      simp [String.ext_iff, jsToUpperCase]
    have hid : (createOrder s { body with orderId := some ("ORD-" ++ jsToUpperCase rand) }
        rand now).1.orderId = "ORD-" ++ jsToUpperCase rand := by
      simp [createOrder, jsOrDefault, hne]
    rw [hid]
    have hlist : ("ORD-" ++ jsToUpperCase rand).toList =
        "ORD-".toList ++ rand.toList.map Char.toUpper := by
      simp [jsToUpperCase]
    have hlen4 : ("ORD-".toList : List Char).length = 4 := rfl
    have htake : ("ORD-".toList ++ rand.toList.map Char.toUpper).take 4 = "ORD-".toList := by
      rw [← hlen4, List.take_left]
    have hdrop : ("ORD-".toList ++ rand.toList.map Char.toUpper).drop 4 =
        rand.toList.map Char.toUpper := by
      rw [← hlen4, List.drop_left]
    simp only [matchesOrd, hlist, htake, hdrop]
    have hlen6 : (rand.toList.map Char.toUpper).length = 6 := by
      simpa using hlen
    have hall : (rand.toList.map Char.toUpper).all isUpperNanoidChar = true := by
      rw [List.all_eq_true]
      intro c hc
      rw [List.mem_map] at hc
      obtain ⟨c0, hc0, rfl⟩ := hc
      exact nanoid_upper_class c0 (halpha c0 hc0)
    simp [hlen6, hall]
    exact ⟨hlen, fun x hx => nanoid_upper_class x (halpha x hx)⟩
  · intro hnone
    simp [createOrder, jsOrDefault, hnone]

/-- Witness for the amended C5 at the concrete draw `"abc_de"`. -/
theorem C5_orderId_amended_witness :
    isNanoidOutput "abc_de" 6 ∧
    (∃ o, (postOrderH sharedState c5Body "abc_de" 0).1 = .createdOrder o ∧
      matchesOrd isUpperNanoidChar o.orderId = true ∧
      (c5Body.paymentStatus = none → o.paymentStatus = "pending")) :=
  ⟨by decide, C5_orderId_amended sharedState c5Body "abc_de" 0 (by decide)⟩

/-! ## Claim C8: terminality of approved/rejected -/

/-- C8 counterexample.  An APPROVED access request is changed to REJECTED by
the owner's `PUT /api/access-requests/:id`: approved is not a terminal state. -/
theorem C8_counterexample :
    getAccessRequest approvedState 1 = some (wAccessRequest 1 1 "approved") ∧
    (putAccessRequestH approvedState 1 1 (some "rejected")).1 = .okIdStatus 1 "rejected" ∧
    (getAccessRequest (putAccessRequestH approvedState 1 1 (some "rejected")).2 1).map
      (·.status) = some "rejected" := by
  refine ⟨by decide, by decide, by decide⟩

/-- C8 as amended.  `PUT /api/access-requests/:id` never writes any status
other than "approved" or "rejected" — in particular no request ever returns to
PENDING — but it does not require the current status to be pending, so
approved and rejected can be flipped into each other (see the counterexample):
they are not terminal. -/
theorem C8_no_return_to_pending (s : Storage) (uid rid : Nat) (status : Option String) :
    ∀ r ∈ (putAccessRequestH s uid rid status).2.accessRequests,
      r ∈ s.accessRequests ∨ r.status = "approved" ∨ r.status = "rejected" := by
  intro r hr
  unfold putAccessRequestH at hr
  by_cases hguard : (jsTruthy status = true) ∧ (jsStr status = "approved" ∨ jsStr status = "rejected")
  · rw [if_neg (not_not_intro hguard)] at hr
    cases hfind : getAccessRequest s rid with
    | none =>
      rw [hfind] at hr
      exact Or.inl hr
    | some ar =>
      rw [hfind] at hr
      simp only [] at hr
      cases hcat : getCatalogue s ar.catalogueId with
      | none =>
        rw [hcat] at hr
        exact Or.inl hr
      | some cat =>
        rw [hcat] at hr
        simp only [] at hr
        by_cases howner : cat.userId ≠ uid
        · rw [if_pos howner] at hr
          exact Or.inl hr
        · rw [if_neg howner] at hr
          simp only [updateAccessRequest] at hr
          cases hfind2 : s.accessRequests.find? (·.id = rid) with
          | none =>
            rw [hfind2] at hr
            exact Or.inl hr
          | some ar2 =>
            rw [hfind2] at hr
            simp only [List.mem_map] at hr
            obtain ⟨orig, horig, heq⟩ := hr
            by_cases hid : orig.id = rid
            · rw [if_pos hid] at heq
              right
              rw [← heq]
              exact hguard.2
            · rw [if_neg hid] at heq
              exact Or.inl (heq ▸ horig)
  · rw [if_pos hguard] at hr
    exact Or.inl hr

/-- Witness for the amended C8: the rewritten request carries a terminal
status. -/
theorem C8_no_return_to_pending_witness :
    wAccessRequest 1 1 "rejected" ∈
      (putAccessRequestH approvedState 1 1 (some "rejected")).2.accessRequests ∧
    (wAccessRequest 1 1 "rejected" ∈ approvedState.accessRequests ∨
      (wAccessRequest 1 1 "rejected").status = "approved" ∨
      (wAccessRequest 1 1 "rejected").status = "rejected") :=
  ⟨by decide, C8_no_return_to_pending approvedState 1 1 (some "rejected")
    (wAccessRequest 1 1 "rejected") (by decide)⟩

/-! ## Claim C10: PUT /api/catalogues/:id never changes ownership -/

theorem addStep_catalogues (uid cid : Nat) (cur : List Nat) (s : Storage) (pid : IdVal) :
    (addStep uid cid cur s pid).catalogues = s.catalogues := by
  unfold addStep
  cases parseIntIdVal pid with
  | none => rfl
  | some n =>
    simp only []
    split
    · rfl
    · split
      · split
        · simp [addProductToCatalogue]
        · rfl
      · rfl

theorem removeStep_catalogues (cid : Nat) (ids : List IdVal) (s : Storage) (z : Nat) :
    (removeStep cid ids s z).catalogues = s.catalogues := by
  unfold removeStep
  by_cases hinc : includesStr ids (natToString z) = true
  · simp [hinc]
  · simp only [hinc, Bool.false_eq_true, if_false]
    unfold removeProductFromCatalogue
    cases s.catalogueProducts.find? (fun cp => cp.catalogueId = cid ∧ cp.productId = z) with
    | none => rfl
    | some cp => rfl

theorem foldl_addStep_catalogues (uid cid : Nat) (cur : List Nat) (ids : List IdVal)
    (s : Storage) : (ids.foldl (addStep uid cid cur) s).catalogues = s.catalogues := by
  induction ids generalizing s with
  | nil => rfl
  | cons x xs ih => rw [List.foldl_cons, ih, addStep_catalogues]

theorem foldl_removeStep_catalogues (cid : Nat) (ids : List IdVal) (cur : List Nat)
    (s : Storage) : (cur.foldl (removeStep cid ids) s).catalogues = s.catalogues := by
  induction cur generalizing s with
  | nil => rfl
  | cons x xs ih => rw [List.foldl_cons, ih, removeStep_catalogues]

/-- C10.  `PUT /api/catalogues/:id` never changes any catalogue's `userId`:
for every request body — including one carrying a `userId` key — the (id,
owner) projection of the catalogue table is unchanged (the handler deletes
`userId` from the validated update before applying it, and the product-sync
loops never touch the catalogue rows).  The `Nodup` hypothesis is the JS `Map`
representation invariant: one row per id. -/
theorem C10_put_catalogue_preserves_owner (s : Storage) (uid cid : Nat)
    (body : PutCatalogueBody) (hkeys : (s.catalogues.map (·.id)).Nodup) :
    catalogueOwners (putCatalogueH s uid cid body).2 = catalogueOwners s := by
  unfold putCatalogueH
  cases hfind : getCatalogue s cid with
  | none => rfl
  | some cat =>
    simp only []
    by_cases howner : cat.userId ≠ uid
    · rw [if_pos howner]
    · rw [if_neg howner]
      have hup : ∀ u : CatalogueUpdate,
          catalogueOwners (updateCatalogue s cid { u with userId := none }).2 =
            catalogueOwners s := by
        intro u
        unfold updateCatalogue
        cases hfind2 : s.catalogues.find? (·.id = cid) with
        | none => rfl
        | some c =>
          have hc_mem : c ∈ s.catalogues := List.mem_of_find?_eq_some hfind2
          have hc_id : c.id = cid := by
            have := List.find?_some hfind2
            simpa using this
          simp only [catalogueOwners, List.map_map]
          apply List.map_congr_left
          intro x hx
          by_cases hxid : x.id = cid
          · have hxc : x = c :=
              List.inj_on_of_nodup_map hkeys hx hc_mem (by rw [hxid, hc_id])
            subst hxc
            simp [hxid, applyCatalogueUpdate]
          · simp [hxid]
      cases body.productIds with
      | none => exact hup body.update
      | some ids =>
        simp only [catalogueOwners, foldl_removeStep_catalogues, foldl_addStep_catalogues]
        exact hup body.update

/-- Witness for C10 at a concrete state, with a body that tries to set
`userId := 99`. -/
theorem C10_put_catalogue_preserves_owner_witness :
    (sharedState.catalogues.map (·.id)).Nodup ∧
    catalogueOwners (putCatalogueH sharedState 1 1
      { update := { userId := some 99 } }).2 = catalogueOwners sharedState :=
  ⟨by decide, C10_put_catalogue_preserves_owner sharedState 1 1
    { update := { userId := some 99 } } (by decide)⟩

/-! ## Claims C1 and C4: token validation across the shared endpoints -/

/-- C1 counterexample.  `GET /api/shared/:link/orders` accepts an expired
token: the token below has `exp = 50`, which is expired at `now = 100` (and at
every later time), yet the request succeeds with a 200 order list and the
handler never consults a clock at all.  The same handler also never compares
the token's `catalogueId` with the URL's catalogue. -/
theorem C1_counterexample :
    (tokenParse expiredTok = some (payloadJVal 1 "r@x.com".toList 50) ∧
      jFieldNumLt (payloadJVal 1 "r@x.com".toList 50) "exp".toList 100 = true) ∧
    sharedOrdersH sharedState "catalogue-abc" (some ("Bearer " ++ expiredTok)) =
      (.okOrders [], sharedState) ∧
    (HResp.okOrders []).status = 200 := by
  refine ⟨⟨tokenParse_tokenEncode 1 "r@x.com" 50, by decide⟩, by decide, rfl⟩

/-- C1 as amended.  Expired and catalogue-mismatched tokens are rejected on
`GET /api/shared/:link/view` (both 401) and on `POST /api/shared/:link/retailer-info`
(401 for expired, 404 for a mismatched catalogueId); `GET /api/shared/:link/orders`
and `PUT /api/shared/:link/orders/:orderId/payment-status` decode the token but
check neither `exp` nor `catalogueId`, so expired or mismatched tokens are
accepted there. -/
theorem C1_token_checks_amended (s : Storage) (link : String) (auth : Option String)
    (now : Nat) (tok : String) (v : JVal)
    (htok : bearerToken auth = some tok) (hparse : tokenParse tok = some v)
    (htruthy : jTruthy v = true ∧ jFieldTruthy v "catalogueId".toList = true ∧
      jFieldTruthy v "exp".toList = true) :
    (jFieldNumLt v "exp".toList now = true →
      sharedViewH s link auth now = (.err 401 "Token expired", s)) ∧
    (∀ cat, jFieldNumLt v "exp".toList now = false →
      getCatalogueByLink s link = some cat →
      jFieldNumEq v "catalogueId".toList cat.id = false →
      sharedViewH s link auth now = (.err 401 "Invalid token for this catalogue", s)) ∧
    (jFieldNumLt v "exp".toList now = true →
      retailerInfoH s link (some "r@x.com") auth now = (.err 401 "Token expired", s)) ∧
    (∀ cat, jFieldNumLt v "exp".toList now = false →
      getCatalogueByLink s link = some cat →
      jFieldNumEq v "catalogueId".toList cat.id = false →
      retailerInfoH s link (some "r@x.com") auth now = (.err 404 "Catalogue not found", s)) ∧
    (∀ cat, getCatalogueByLink s link = some cat →
      ∃ os, sharedOrdersH s link auth = (.okOrders os, s)) ∧
    (∀ oid st o, getOrderByOrderId s oid = some o →
      jFieldStrEq v "email".toList o.retailerEmail = true →
      ∃ resp s', sharedPayStatusH s link oid st auth = (resp, s') ∧ resp.status = 200) := by
  refine ⟨?_, ?_, ?_, ?_, ?_, ?_⟩
  · intro hexp
    unfold sharedViewH
    rw [htok]
    simp only []
    rw [hparse]
    simp only []
    rw [if_neg (not_not_intro htruthy), if_pos hexp]
  · intro cat hexp hlink hmatch
    unfold sharedViewH
    rw [htok]
    simp only []
    rw [hparse]
    simp only []
    rw [if_neg (not_not_intro htruthy), if_neg (by simp only [Bool.not_eq_true]; exact hexp), hlink]
    simp only []
    rw [if_pos (by simp only [Bool.not_eq_true]; exact hmatch)]
  · intro hexp
    unfold retailerInfoH
    rw [htok]
    simp only []
    rw [hparse]
    simp only []
    rw [if_neg (not_not_intro htruthy), if_pos hexp]
  · intro cat hexp hlink hmatch
    unfold retailerInfoH
    rw [htok]
    simp only []
    rw [hparse]
    simp only []
    rw [if_neg (not_not_intro htruthy), if_neg (by simp only [Bool.not_eq_true]; exact hexp), hlink]
    simp only []
    rw [if_pos (by simp only [Bool.not_eq_true]; exact hmatch)]
  · intro cat hlink
    refine ⟨(match jFieldStr v "email".toList with
      | some e => getOrdersByEmail s e
      | none => []), ?_⟩
    unfold sharedOrdersH
    rw [htok]
    simp only []
    rw [hparse]
    simp only []
    rw [hlink]
  · intro oid st o hord hemail
    unfold sharedPayStatusH
    rw [htok]
    simp only []
    rw [hparse]
    simp only []
    rw [hord]
    simp only []
    rw [if_neg (not_not_intro hemail)]
    cases hupd : updateOrderPaymentStatus s oid st with
    | mk fst snd =>
      cases fst with
      | some o' => exact ⟨.okOrder o', snd, rfl, rfl⟩
      | none => exact ⟨.okEmpty, snd, rfl, rfl⟩

/-- Witness for the amended C1: at `now = 2000000` the valid-for-catalogue-1
token (exp 1000000) is expired and `GET /view` answers 401. -/
theorem C1_token_checks_amended_witness :
    (bearerToken (some ("Bearer " ++ validTok)) = some validTok ∧
      tokenParse validTok = some validTokVal ∧
      jTruthy validTokVal = true ∧
      jFieldTruthy validTokVal "catalogueId".toList = true ∧
      jFieldTruthy validTokVal "exp".toList = true ∧
      jFieldNumLt validTokVal "exp".toList 2000000 = true) ∧
    sharedViewH sharedState "catalogue-abc" (some ("Bearer " ++ validTok)) 2000000 =
      (.err 401 "Token expired", sharedState) :=
  ⟨⟨by decide, tokenParse_tokenEncode 1 "r@x.com" 1000000, by decide, by decide,
      by decide, by decide⟩,
    (C1_token_checks_amended sharedState "catalogue-abc"
      (some ("Bearer " ++ validTok)) 2000000 validTok validTokVal (by decide)
      (tokenParse_tokenEncode 1 "r@x.com" 1000000)
      ⟨by decide, by decide, by decide⟩).1 (by decide)⟩

/-- C4 counterexample.  A well-formed, unexpired token whose `catalogueId` (2)
does not match the URL's catalogue (1) makes
`POST /api/shared/:link/retailer-info` answer 404, not 401. -/
theorem C4_counterexample :
    tokenParse mismatchTok = some (payloadJVal 2 "r@x.com".toList 1000000) ∧
    jFieldNumLt (payloadJVal 2 "r@x.com".toList 1000000) "exp".toList 0 = false ∧
    retailerInfoH sharedState "catalogue-abc" (some "r@x.com")
      (some ("Bearer " ++ mismatchTok)) 0 =
      (.err 404 "Catalogue not found", sharedState) ∧
    (404 : Nat) ≠ 401 :=
  ⟨tokenParse_tokenEncode 2 "r@x.com" 1000000, by decide, by decide, by decide⟩

/-- C4 as amended.  On `GET /view`, malformed, missing-field, expired, and
mismatched-catalogue tokens all produce 401 (distinguished only by message);
on `POST /retailer-info` malformed, missing-field, and expired tokens produce
401 but a mismatched `catalogueId` produces 404; `GET /orders` and
`PUT payment-status` only detect tokens that fail to decode (401) and perform
no further token validation. -/
theorem C4_token_errors_amended (s : Storage) (link : String) (auth : Option String)
    (now : Nat) (tok : String) (htok : bearerToken auth = some tok) :
    (tokenParse tok = none →
      sharedViewH s link auth now = (.err 401 "Invalid token format", s) ∧
      retailerInfoH s link (some "r@x.com") auth now = (.err 401 "Invalid token format", s) ∧
      sharedOrdersH s link auth = (.err 401 "Invalid token", s) ∧
      sharedPayStatusH s link "ORD-XXXXXX" "paid" auth = (.err 401 "Invalid token", s)) ∧
    (∀ v, tokenParse tok = some v →
      ¬ (jTruthy v = true ∧ jFieldTruthy v "catalogueId".toList = true ∧
          jFieldTruthy v "exp".toList = true) →
      sharedViewH s link auth now = (.err 401 "Invalid token format", s) ∧
      retailerInfoH s link (some "r@x.com") auth now = (.err 401 "Invalid token format", s)) ∧
    (∀ v, tokenParse tok = some v →
      (jTruthy v = true ∧ jFieldTruthy v "catalogueId".toList = true ∧
        jFieldTruthy v "exp".toList = true) →
      jFieldNumLt v "exp".toList now = true →
      sharedViewH s link auth now = (.err 401 "Token expired", s) ∧
      retailerInfoH s link (some "r@x.com") auth now = (.err 401 "Token expired", s)) ∧
    (∀ v cat, tokenParse tok = some v →
      (jTruthy v = true ∧ jFieldTruthy v "catalogueId".toList = true ∧
        jFieldTruthy v "exp".toList = true) →
      jFieldNumLt v "exp".toList now = false →
      getCatalogueByLink s link = some cat →
      jFieldNumEq v "catalogueId".toList cat.id = false →
      sharedViewH s link auth now = (.err 401 "Invalid token for this catalogue", s) ∧
      retailerInfoH s link (some "r@x.com") auth now = (.err 404 "Catalogue not found", s)) := by
  refine ⟨?_, ?_, ?_, ?_⟩
  · intro hnone
    refine ⟨?_, ?_, ?_, ?_⟩
    · unfold sharedViewH
      rw [htok]
      simp only []
      rw [hnone]
    · unfold retailerInfoH
      rw [htok]
      simp only []
      rw [hnone]
    · unfold sharedOrdersH
      rw [htok]
      simp only []
      rw [hnone]
    · unfold sharedPayStatusH
      rw [htok]
      simp only []
      rw [hnone]
  · intro v hv hbad
    refine ⟨?_, ?_⟩
    · unfold sharedViewH
      rw [htok]
      simp only []
      rw [hv]
      simp only []
      rw [if_pos hbad]
    · unfold retailerInfoH
      rw [htok]
      simp only []
      rw [hv]
      simp only []
      rw [if_pos hbad]
  · intro v hv hgood hexp
    refine ⟨?_, ?_⟩
    · unfold sharedViewH
      rw [htok]
      simp only []
      rw [hv]
      simp only []
      rw [if_neg (not_not_intro hgood), if_pos hexp]
    · unfold retailerInfoH
      rw [htok]
      simp only []
      rw [hv]
      simp only []
      rw [if_neg (not_not_intro hgood), if_pos hexp]
  · intro v cat hv hgood hexp hlink hmatch
    refine ⟨?_, ?_⟩
    · unfold sharedViewH
      rw [htok]
      simp only []
      rw [hv]
      simp only []
      rw [if_neg (not_not_intro hgood),
        if_neg (by simp only [Bool.not_eq_true]; exact hexp), hlink]
      simp only []
      rw [if_pos (by simp only [Bool.not_eq_true]; exact hmatch)]
    · unfold retailerInfoH
      rw [htok]
      simp only []
      rw [hv]
      simp only []
      rw [if_neg (not_not_intro hgood),
        if_neg (by simp only [Bool.not_eq_true]; exact hexp), hlink]
      simp only []
      rw [if_pos (by simp only [Bool.not_eq_true]; exact hmatch)]

/-- Witness for the amended C4: a syntactically broken token ("Bearer !!!")
yields 401 on all four endpoints. -/
theorem C4_token_errors_amended_witness :
    (bearerToken (some "Bearer !!!") = some "!!!" ∧ tokenParse "!!!" = none) ∧
    (sharedViewH sharedState "catalogue-abc" (some "Bearer !!!") 0 =
        (.err 401 "Invalid token format", sharedState) ∧
      retailerInfoH sharedState "catalogue-abc" (some "r@x.com") (some "Bearer !!!") 0 =
        (.err 401 "Invalid token format", sharedState) ∧
      sharedOrdersH sharedState "catalogue-abc" (some "Bearer !!!") =
        (.err 401 "Invalid token", sharedState) ∧
      sharedPayStatusH sharedState "catalogue-abc" "ORD-XXXXXX" "paid" (some "Bearer !!!") =
        (.err 401 "Invalid token", sharedState)) :=
  ⟨⟨by decide, rfl⟩,
    (C4_token_errors_amended sharedState "catalogue-abc" (some "Bearer !!!") 0 "!!!"
      (by decide)).1 rfl⟩

/-! ## Claim C3: access-request lifecycle -/

theorem jget_payload_catalogueId (cid exp : Nat) (email : List Char) :
    jget (payloadJVal cid email exp) "catalogueId".toList = some (.jnum (cid : Int)) := rfl

theorem jget_payload_email (cid exp : Nat) (email : List Char) :
    jget (payloadJVal cid email exp) "email".toList = some (.jstr email) := rfl

/-- C3.  For requests carrying the required fields: `request-access` on an
unknown link answers 404 and creates nothing; on a known link it appends an
AccessRequest row in status "pending"; `check-access` answers
`{granted:false}` while that request's status is not "approved"; once it is
approved, `check-access` answers `{granted:true, accessToken}` where the
token base64/JSON-decodes back to the original catalogueId and email. -/
theorem C3_access_lifecycle (s : Storage) (link : String)
    (name email company message : Option String) (now : Nat)
    (hfields : jsTruthy name = true ∧ jsTruthy email = true ∧ jsTruthy company = true) :
    (getCatalogueByLink s link = none →
      requestAccessH s link name email company message now =
        (.err 404 "Catalogue not found", s)) ∧
    (∀ cat, getCatalogueByLink s link = some cat →
      requestAccessH s link name email company message now =
        (.createdAccess s.currentAccessRequestId "pending",
          { s with
            accessRequests := s.accessRequests ++
              [{ id := s.currentAccessRequestId, catalogueId := cat.id,
                 name := jsStr name, email := jsStr email, company := jsStr company,
                 message := some (jsOrDefault message ""), status := "pending",
                 requestDate := now }]
            currentAccessRequestId := s.currentAccessRequestId + 1 })) ∧
    (∀ cat ar, getCatalogueByLink s link = some cat →
      getAccessRequestByEmail s cat.id (jsStr email) = some ar →
      ar.status ≠ "approved" →
      checkAccessH s link email now = (.okGranted false none, s)) ∧
    (∀ cat ar, getCatalogueByLink s link = some cat →
      getAccessRequestByEmail s cat.id (jsStr email) = some ar →
      ar.status = "approved" →
      checkAccessH s link email now =
        (.okGranted true (some (tokenEncode cat.id (jsStr email) (now + 604800000))), s) ∧
      tokenParse (tokenEncode cat.id (jsStr email) (now + 604800000)) =
        some (payloadJVal cat.id (jsStr email).toList (now + 604800000)) ∧
      jget (payloadJVal cat.id (jsStr email).toList (now + 604800000))
        "catalogueId".toList = some (.jnum (cat.id : Int)) ∧
      jget (payloadJVal cat.id (jsStr email).toList (now + 604800000))
        "email".toList = some (.jstr (jsStr email).toList)) := by
  obtain ⟨hn, he, hc⟩ := hfields
  refine ⟨?_, ?_, ?_, ?_⟩
  · intro hlink
    unfold requestAccessH
    rw [if_neg (not_not_intro ⟨hn, he, hc⟩), hlink]
  · intro cat hlink
    unfold requestAccessH
    rw [if_neg (not_not_intro ⟨hn, he, hc⟩), hlink]
    simp only [createAccessRequest]
    rfl
  · intro cat ar hlink har hst
    unfold checkAccessH
    rw [if_neg (not_not_intro he), hlink]
    simp only []
    rw [har]
    simp only []
    rw [if_neg hst]
  · intro cat ar hlink har hst
    refine ⟨?_, tokenParse_tokenEncode _ _ _, rfl, rfl⟩
    unfold checkAccessH
    rw [if_neg (not_not_intro he), hlink]
    simp only []
    rw [har]
    simp only []
    rw [if_pos hst]

/-- Witness for C3: the full lifecycle at the concrete shared catalogue. -/
theorem C3_access_lifecycle_witness :
    (jsTruthy (some "R") = true ∧ jsTruthy (some "r@x.com") = true ∧
      jsTruthy (some "Co") = true) ∧
    (getCatalogueByLink approvedState "catalogue-abc" = some (wCatalogue 1 1) ∧
      getAccessRequestByEmail approvedState 1 (jsStr (some "r@x.com")) =
        some (wAccessRequest 1 1 "approved") ∧
      (wAccessRequest 1 1 "approved").status = "approved") ∧
    (checkAccessH approvedState "catalogue-abc" (some "r@x.com") 8 =
        (.okGranted true (some (tokenEncode 1 (jsStr (some "r@x.com")) (8 + 604800000))), approvedState) ∧
      tokenParse (tokenEncode 1 (jsStr (some "r@x.com")) (8 + 604800000)) =
        some (payloadJVal 1 (jsStr (some "r@x.com")).toList (8 + 604800000)) ∧
      jget (payloadJVal 1 (jsStr (some "r@x.com")).toList (8 + 604800000))
        "catalogueId".toList = some (.jnum (1 : Int)) ∧
      jget (payloadJVal 1 (jsStr (some "r@x.com")).toList (8 + 604800000))
        "email".toList = some (.jstr (jsStr (some "r@x.com")).toList)) :=
  ⟨⟨by decide, by decide, by decide⟩, ⟨by decide, by decide, by decide⟩,
    by
      have h := (C3_access_lifecycle approvedState "catalogue-abc"
        (some "R") (some "r@x.com") (some "Co") none 8
        ⟨by decide, by decide, by decide⟩).2.2.2 (wCatalogue 1 1)
        (wAccessRequest 1 1 "approved") (by decide) (by decide) (by decide)
      simpa using h⟩

/-! ## Claim C7: the views counter -/

/-- A successful token check on `GET /view` leaves exactly one increment of the
catalogue's views counter, whatever the distributor lookup does. -/
theorem sharedViewH_state (s : Storage) (link : String) (auth : Option String)
    (now : Nat) (tok : String) (v : JVal) (cat : Catalogue)
    (htok : bearerToken auth = some tok) (hparse : tokenParse tok = some v)
    (hgood : jTruthy v = true ∧ jFieldTruthy v "catalogueId".toList = true ∧
      jFieldTruthy v "exp".toList = true)
    (hexp : jFieldNumLt v "exp".toList now = false)
    (hlink : getCatalogueByLink s link = some cat)
    (hmatch : jFieldNumEq v "catalogueId".toList cat.id = true) :
    (sharedViewH s link auth now).2 = incrementCatalogueViews s cat.id := by
  unfold sharedViewH
  rw [htok]
  simp only []
  rw [hparse]
  simp only []
  rw [if_neg (not_not_intro hgood),
    if_neg (by simp only [Bool.not_eq_true]; exact hexp), hlink]
  simp only []
  rw [if_neg (not_not_intro hmatch)]
  cases getUser (incrementCatalogueViews s cat.id) cat.userId with
  | none => rfl
  | some u => rfl

theorem find?_ext {α : Type} (p q : α → Bool) (h : ∀ a, p a = q a) (l : List α) :
    l.find? p = l.find? q := by
  induction l with
  | nil => rfl
  | cons x xs ih =>
    rw [List.find?_cons, List.find?_cons, h x, ih]

theorem getCatalogueByLink_increment (s : Storage) (cid : Nat) (link : String) :
    getCatalogueByLink (incrementCatalogueViews s cid) link =
      (getCatalogueByLink s link).map
        (fun c => if c.id = cid then { c with views := c.views + 1 } else c) := by
  unfold getCatalogueByLink incrementCatalogueViews
  simp only []
  rw [List.find?_map]
  rw [find?_ext _ (fun x => decide (x.shareableLink = link)) ?_ s.catalogues]
  intro c
  by_cases h : c.id = cid
  · simp [h]
  · simp [h]

/-- C7.  Two sequential `GET /api/shared/:link/view` requests with a valid
non-expired token for the catalogue bump its `views` counter by exactly 2
(and change nothing else about the catalogue table). -/
theorem C7_two_views_increment_by_two (s : Storage) (link : String)
    (auth : Option String) (now : Nat) (tok : String) (v : JVal) (cat : Catalogue)
    (htok : bearerToken auth = some tok) (hparse : tokenParse tok = some v)
    (hgood : jTruthy v = true ∧ jFieldTruthy v "catalogueId".toList = true ∧
      jFieldTruthy v "exp".toList = true)
    (hexp : jFieldNumLt v "exp".toList now = false)
    (hlink : getCatalogueByLink s link = some cat)
    (hmatch : jFieldNumEq v "catalogueId".toList cat.id = true) :
    (sharedViewH (sharedViewH s link auth now).2 link auth now).2.catalogues =
      s.catalogues.map
        (fun c => if c.id = cat.id then { c with views := c.views + 2 } else c) := by
  have h1 : (sharedViewH s link auth now).2 = incrementCatalogueViews s cat.id :=
    sharedViewH_state s link auth now tok v cat htok hparse hgood hexp hlink hmatch
  have hlink2 : getCatalogueByLink (incrementCatalogueViews s cat.id) link =
      some { cat with views := cat.views + 1 } := by
    rw [getCatalogueByLink_increment, hlink]
    simp
  have hmatch2 : jFieldNumEq v "catalogueId".toList
      ({ cat with views := cat.views + 1 } : Catalogue).id = true := hmatch
  have h2 : (sharedViewH (incrementCatalogueViews s cat.id) link auth now).2 =
      incrementCatalogueViews (incrementCatalogueViews s cat.id)
        ({ cat with views := cat.views + 1 } : Catalogue).id :=
    sharedViewH_state _ link auth now tok v _ htok hparse hgood hexp hlink2 hmatch2
  rw [h1, h2]
  show (incrementCatalogueViews (incrementCatalogueViews s cat.id) cat.id).catalogues = _
  unfold incrementCatalogueViews
  simp only [List.map_map]
  apply List.map_congr_left
  intro c _
  by_cases h : c.id = cat.id
  · simp [h]
  · simp [h]

/-- Witness for C7: two views at the concrete shared catalogue go from 0 to 2. -/
theorem C7_two_views_increment_by_two_witness :
    (bearerToken (some ("Bearer " ++ validTok)) = some validTok ∧
      tokenParse validTok = some validTokVal ∧
      jFieldNumLt validTokVal "exp".toList 5 = false ∧
      getCatalogueByLink sharedState "catalogue-abc" = some (wCatalogue 1 1) ∧
      jFieldNumEq validTokVal "catalogueId".toList (wCatalogue 1 1).id = true) ∧
    (sharedViewH (sharedViewH sharedState "catalogue-abc"
        (some ("Bearer " ++ validTok)) 5).2 "catalogue-abc"
        (some ("Bearer " ++ validTok)) 5).2.catalogues =
      sharedState.catalogues.map
        (fun c => if c.id = (wCatalogue 1 1).id then { c with views := c.views + 2 } else c) :=
  ⟨⟨by decide, tokenParse_tokenEncode 1 "r@x.com" 1000000, by decide, by decide, by decide⟩,
    C7_two_views_increment_by_two sharedState "catalogue-abc"
      (some ("Bearer " ++ validTok)) 5 validTok validTokVal (wCatalogue 1 1) (by decide)
      (tokenParse_tokenEncode 1 "r@x.com" 1000000)
      ⟨by decide, by decide, by decide⟩ (by decide) (by decide) (by decide)⟩

/-! ## Claim C9: the password never appears in the shared view response -/

theorem getUser_setUserPassword (s : Storage) (uid : Nat) (pw : String) (x : Nat) :
    getUser (setUserPassword s uid pw) x =
      (getUser s x).map (fun u => if u.id = uid then { u with password := pw } else u) := by
  unfold getUser setUserPassword
  simp only []
  rw [List.find?_map]
  rw [find?_ext _ (fun u => decide (u.id = x)) ?_ s.users]
  intro u
  by_cases h : u.id = uid
  · simp [h]
  · simp [h]

/-- C9.  The distributor object in a successful `GET /view` response consists
of the owner's id, username, email, company, and createdAt — never the
password: (i) the successful response is exactly those five fields; (ii) the
whole response is invariant under changing any user's password hash. -/
theorem C9_password_never_in_view (s : Storage) (link : String) (auth : Option String)
    (now : Nat) :
    (∀ tok v cat u,
      bearerToken auth = some tok → tokenParse tok = some v →
      (jTruthy v = true ∧ jFieldTruthy v "catalogueId".toList = true ∧
        jFieldTruthy v "exp".toList = true) →
      jFieldNumLt v "exp".toList now = false →
      getCatalogueByLink s link = some cat →
      jFieldNumEq v "catalogueId".toList cat.id = true →
      getUser (incrementCatalogueViews s cat.id) cat.userId = some u →
      sharedViewH s link auth now =
        (.okView cat (getCatalogueProducts (incrementCatalogueViews s cat.id) cat.id)
          u.id u.username u.email u.company u.createdAt,
          incrementCatalogueViews s cat.id)) ∧
    (∀ uid pw,
      (sharedViewH (setUserPassword s uid pw) link auth now).1 =
        (sharedViewH s link auth now).1) := by
  constructor
  · intro tok v cat u htok hparse hgood hexp hlink hmatch huser
    unfold sharedViewH
    rw [htok]
    simp only []
    rw [hparse]
    simp only []
    rw [if_neg (not_not_intro hgood),
      if_neg (by simp only [Bool.not_eq_true]; exact hexp), hlink]
    simp only []
    rw [if_neg (not_not_intro hmatch), huser]
  · intro uid pw
    unfold sharedViewH
    cases bearerToken auth with
    | none => rfl
    | some tok =>
      simp only []
      cases tokenParse tok with
      | none => rfl
      | some v =>
        simp only []
        by_cases hgood : jTruthy v = true ∧ jFieldTruthy v "catalogueId".toList = true ∧
            jFieldTruthy v "exp".toList = true
        · rw [if_neg (not_not_intro hgood), if_neg (not_not_intro hgood)]
          by_cases hexp : jFieldNumLt v "exp".toList now = true
          · rw [if_pos hexp, if_pos hexp]
          · rw [if_neg hexp, if_neg hexp]
            have hbl : getCatalogueByLink (setUserPassword s uid pw) link =
                getCatalogueByLink s link := rfl
            rw [hbl]
            cases hlink : getCatalogueByLink s link with
            | none => rfl
            | some cat =>
              simp only []
              by_cases hmatch : jFieldNumEq v "catalogueId".toList cat.id = true
              · rw [if_neg (not_not_intro hmatch), if_neg (not_not_intro hmatch)]
                have hinc : incrementCatalogueViews (setUserPassword s uid pw) cat.id =
                    setUserPassword (incrementCatalogueViews s cat.id) uid pw := rfl
                have hprod : getCatalogueProducts
                    (setUserPassword (incrementCatalogueViews s cat.id) uid pw) cat.id =
                    getCatalogueProducts (incrementCatalogueViews s cat.id) cat.id := rfl
                rw [hinc, getUser_setUserPassword, hprod]
                cases getUser (incrementCatalogueViews s cat.id) cat.userId with
                | none => rfl
                | some u =>
                  by_cases hu : u.id = uid
                  · simp [hu, hprod]
                  · simp [hu]
              · rw [if_pos hmatch, if_pos hmatch]
        · rw [if_pos hgood, if_pos hgood]

/-- Witness for C9 part (i) at the concrete state: the distributor object is
exactly `wUser1` minus its password. -/
theorem C9_password_never_in_view_witness :
    (bearerToken (some ("Bearer " ++ validTok)) = some validTok ∧
      getUser (incrementCatalogueViews sharedState 1) 1 = some wUser1) ∧
    sharedViewH sharedState "catalogue-abc" (some ("Bearer " ++ validTok)) 5 =
      (.okView (wCatalogue 1 1)
        (getCatalogueProducts (incrementCatalogueViews sharedState 1) 1)
        wUser1.id wUser1.username wUser1.email wUser1.company wUser1.createdAt,
        incrementCatalogueViews sharedState 1) :=
  ⟨⟨by decide, by decide⟩,
    (C9_password_never_in_view sharedState "catalogue-abc"
      (some ("Bearer " ++ validTok)) 5).1 validTok validTokVal (wCatalogue 1 1) wUser1
      (by decide) (tokenParse_tokenEncode 1 "r@x.com" 1000000)
      ⟨by decide, by decide, by decide⟩ (by decide) (by decide) (by decide) (by decide)⟩

/-! ## Claim C6: catalogue product sync -/

theorem getProduct_some_id {s : Storage} {n : Nat} {p : Product}
    (h : getProduct s n = some p) : p.id = n := by
  have := List.find?_some h
  simpa using this

theorem takeWhile_all {p : Char → Bool} {l : List Char} (h : ∀ c ∈ l, p c = true) :
    l.takeWhile p = l ∧ l.dropWhile p = [] := by
  induction l with
  | nil => simp
  | cons x xs ih =>
    have hx : p x = true := h x (by simp)
    have ih' := ih (fun c hc => h c (by simp [hc]))
    simp [List.takeWhile, List.dropWhile, hx, ih'.1, ih'.2]

theorem parseIntStr_natToString (n : Nat) : parseIntStr (natToString n) = some n := by
  have h := takeWhile_all (natToChars_all_digits n)
  have htl : (natToString n).toList = natToChars n := rfl
  simp only [parseIntStr, parseNatChars, htl, h.1, h.2]
  rw [if_neg (by simp [List.isEmpty_iff, natToChars_ne_nil n])]
  simp [digitsVal_natToChars]

theorem natToString_inj {a b : Nat} (h : natToString a = natToString b) : a = b := by
  have ha : digitsVal (natToChars a) = a := digitsVal_natToChars a
  have hb : digitsVal (natToChars b) = b := digitsVal_natToChars b
  have hl : natToChars a = natToChars b := congrArg String.toList h
  rw [← ha, ← hb, hl]

theorem includesStr_pair (x y z : Nat) :
    includesStr [.str (natToString x), .str (natToString y)] (natToString z) = true ↔
      (z = x ∨ z = y) := by
  simp only [includesStr, List.any_cons, List.any_nil, Bool.or_eq_true, Bool.or_false]
  constructor
  · rintro (h | h)
    · exact Or.inl (natToString_inj (by simpa using h)).symm
    · exact Or.inr (natToString_inj (by simpa using h)).symm
  · rintro (rfl | rfl)
    · exact Or.inl (by simp)
    · exact Or.inr (by simp)

theorem filterMap_getProduct_ids (s : Storage) (l : List CatalogueProduct)
    (h : ∀ cp ∈ l, (getProduct s cp.productId).isSome = true) :
    (l.filterMap (fun cp => getProduct s cp.productId)).map (·.id) =
      l.map (·.productId) := by
  induction l with
  | nil => rfl
  | cons cp l ih =>
    obtain ⟨p, hp⟩ := Option.isSome_iff_exists.mp (h cp (by simp))
    rw [List.filterMap_cons, hp]
    simp only [List.map_cons]
    rw [ih (fun c hc => h c (by simp [hc])), getProduct_some_id hp]

theorem pidsOf_eq_rowPids {s : Storage} {cid : Nat}
    (h : ∀ cp ∈ rowsFor s cid, (getProduct s cp.productId).isSome = true) :
    pidsOf s cid = (rowsFor s cid).map (·.productId) :=
  filterMap_getProduct_ids s (rowsFor s cid) h

theorem updateCatalogue_parts (s : Storage) (cid : Nat) (u : CatalogueUpdate) :
    (updateCatalogue s cid u).2.catalogueProducts = s.catalogueProducts ∧
    (updateCatalogue s cid u).2.products = s.products ∧
    (updateCatalogue s cid u).2.currentCatalogueProductId = s.currentCatalogueProductId := by
  unfold updateCatalogue
  cases s.catalogues.find? (·.id = cid) with
  | none => exact ⟨rfl, rfl, rfl⟩
  | some c => exact ⟨rfl, rfl, rfl⟩

theorem applyCatalogueUpdate_id (c : Catalogue) (u : CatalogueUpdate) :
    (applyCatalogueUpdate c u).id = c.id := rfl

theorem getCatalogue_updateCatalogue (s : Storage) (cid : Nat) (u : CatalogueUpdate) :
    getCatalogue (updateCatalogue s cid u).2 cid =
      (getCatalogue s cid).map (fun c => applyCatalogueUpdate c u) := by
  unfold getCatalogue updateCatalogue
  cases hf : s.catalogues.find? (·.id = cid) with
  | none => simp [hf]
  | some c =>
    have hcid : c.id = cid := by
      have := List.find?_some hf
      simpa using this
    simp only []
    rw [List.find?_map]
    rw [find?_ext _ (fun x : Catalogue => decide (x.id = cid)) ?_ s.catalogues]
    · rw [hf]
      simp [hcid]
    · intro x
      by_cases h : x.id = cid
      · simp [h, applyCatalogueUpdate_id, hcid]
      · simp [h]

theorem addProductToCatalogue_state (s : Storage) (cid n : Nat) :
    (addProductToCatalogue s cid n).2 =
      { s with
        catalogueProducts := s.catalogueProducts ++
          [{ id := s.currentCatalogueProductId, catalogueId := cid, productId := n }]
        currentCatalogueProductId := s.currentCatalogueProductId + 1 } := rfl

theorem addStep_str {s : Storage} {uid x : Nat} {px : Product} (cid : Nat)
    (cur : List Nat) (hx : getProduct s x = some px) (hxo : px.userId = uid) :
    addStep uid cid cur s (.str (natToString x)) =
      if x ∈ cur then s else (addProductToCatalogue s cid x).2 := by
  unfold addStep
  simp only [parseIntIdVal, parseIntStr_natToString]
  by_cases hmem : x ∈ cur
  · simp [hmem]
  · have hc : cur.contains x = false := by simpa using hmem
    simp only [hc, Bool.false_eq_true, if_false]
    rw [hx]
    simp only []
    rw [if_pos hxo, getProduct_some_id hx, if_neg hmem]

theorem removeOne_cps {s : Storage} {cid z : Nat}
    (hids : (s.catalogueProducts.map (·.id)).Nodup)
    (hpids : ((rowsFor s cid).map (·.productId)).Nodup) :
    (removeProductFromCatalogue s cid z).2.catalogueProducts =
      s.catalogueProducts.filter
        (fun cp => ¬(cp.catalogueId = cid ∧ cp.productId = z)) := by
  unfold removeProductFromCatalogue
  cases hf : s.catalogueProducts.find? (fun cp => cp.catalogueId = cid ∧ cp.productId = z) with
  | none =>
    simp only []
    symm
    rw [List.filter_eq_self]
    intro cp hcp
    have h0 := List.find?_eq_none.mp hf cp hcp
    simp at h0 ⊢
    tauto
  | some cp0 =>
    simp only []
    apply List.filter_congr
    intro cp hcp
    have hcp0mem : cp0 ∈ s.catalogueProducts := List.mem_of_find?_eq_some hf
    have hcp0match : cp0.catalogueId = cid ∧ cp0.productId = z := by
      have := List.find?_some hf
      simpa using this
    by_cases heq : cp = cp0
    · subst heq
      simp [hcp0match.1, hcp0match.2]
    · have hidne : cp.id ≠ cp0.id := by
        intro hid
        exact heq (List.inj_on_of_nodup_map hids hcp hcp0mem hid)
      have hnm : ¬(cp.catalogueId = cid ∧ cp.productId = z) := by
        rintro ⟨h1, h2⟩
        have hcpr : cp ∈ rowsFor s cid := List.mem_filter.mpr ⟨hcp, by simp [h1]⟩
        have hcp0r : cp0 ∈ rowsFor s cid :=
          List.mem_filter.mpr ⟨hcp0mem, by simp [hcp0match.1]⟩
        exact heq (List.inj_on_of_nodup_map hpids hcpr hcp0r (by rw [h2, hcp0match.2]))
      simp [hidne, hnm]

theorem rowsFor_filter_sub (s : Storage) (cid : Nat) (q : CatalogueProduct → Bool) :
    ((s.catalogueProducts.filter q).filter (·.catalogueId = cid)).Sublist
      (rowsFor s cid) := by
  unfold rowsFor
  exact (List.filter_sublist _).filter _

theorem removeLoop_cps (cid : Nat) (ids : List IdVal) :
    ∀ (cur : List Nat) (s : Storage), cur.Nodup →
      (s.catalogueProducts.map (·.id)).Nodup →
      ((rowsFor s cid).map (·.productId)).Nodup →
      (cur.foldl (removeStep cid ids) s).catalogueProducts =
        s.catalogueProducts.filter
          (fun cp => ¬(cp.catalogueId = cid ∧ cp.productId ∈ cur ∧
            includesStr ids (natToString cp.productId) = false)) := by
  intro cur
  induction cur with
  | nil =>
    intro s _ _ _
    simp
  | cons z cur' ih =>
    intro s hnd hids hpids
    have hz_not : z ∉ cur' := by
      have := hnd
      rw [List.nodup_cons] at this
      exact this.1
    have hnd' : cur'.Nodup := by
      rw [List.nodup_cons] at hnd
      exact hnd.2
    rw [List.foldl_cons]
    by_cases hinc : includesStr ids (natToString z) = true
    · have hstep : removeStep cid ids s z = s := by
        unfold removeStep
        rw [if_pos hinc]
      rw [hstep, ih s hnd' hids hpids]
      apply List.filter_congr
      intro cp hcp
      by_cases hcat : cp.catalogueId = cid
      · by_cases hpz : cp.productId = z
        · simp [hcat, hpz, hinc]
        · simp [hcat, hpz]
      · simp [hcat]
    · have hstep : removeStep cid ids s z = (removeProductFromCatalogue s cid z).2 := by
        unfold removeStep
        rw [if_neg hinc]
      rw [hstep]
      have hcps : (removeProductFromCatalogue s cid z).2.catalogueProducts =
          s.catalogueProducts.filter
            (fun cp => ¬(cp.catalogueId = cid ∧ cp.productId = z)) :=
        removeOne_cps hids hpids
      have hids' : ((removeProductFromCatalogue s cid z).2.catalogueProducts.map
          (·.id)).Nodup := by
        rw [hcps]
        exact ((List.filter_sublist _).map _).nodup hids
      have hpids' : ((rowsFor (removeProductFromCatalogue s cid z).2 cid).map
          (·.productId)).Nodup := by
        have hsub : (rowsFor (removeProductFromCatalogue s cid z).2 cid).Sublist
            (rowsFor s cid) := by
          unfold rowsFor
          rw [hcps]
          exact (List.filter_sublist _).filter _
        exact (hsub.map _).nodup hpids
      rw [ih (removeProductFromCatalogue s cid z).2 hnd' hids' hpids']
      rw [hcps, List.filter_filter]
      apply List.filter_congr
      intro cp hcp
      by_cases hcat : cp.catalogueId = cid
      · by_cases hpz : cp.productId = z
        · simp [hcat, hpz, hinc]
        · simp [hcat, hpz]
      · simp [hcat]

theorem getProduct_congr {s1 s : Storage} (h : s1.products = s.products) (n : Nat) :
    getProduct s1 n = getProduct s n := by
  unfold getProduct
  rw [h]

theorem getCatalogue_congr {s1 s : Storage} (h : s1.catalogues = s.catalogues) (n : Nat) :
    getCatalogue s1 n = getCatalogue s n := by
  unfold getCatalogue
  rw [h]

theorem addStep_products (uid cid : Nat) (cur : List Nat) (s : Storage) (pid : IdVal) :
    (addStep uid cid cur s pid).products = s.products := by
  unfold addStep
  cases parseIntIdVal pid with
  | none => rfl
  | some n =>
    simp only []
    split
    · rfl
    · split
      · split
        · simp [addProductToCatalogue]
        · rfl
      · rfl

theorem removeStep_products (cid : Nat) (ids : List IdVal) (s : Storage) (z : Nat) :
    (removeStep cid ids s z).products = s.products := by
  unfold removeStep
  split
  · rfl
  · unfold removeProductFromCatalogue
    cases s.catalogueProducts.find? (fun cp => cp.catalogueId = cid ∧ cp.productId = z) with
    | none => rfl
    | some cp => rfl

theorem removeStep_ctr (cid : Nat) (ids : List IdVal) (s : Storage) (z : Nat) :
    (removeStep cid ids s z).currentCatalogueProductId = s.currentCatalogueProductId := by
  unfold removeStep
  split
  · rfl
  · unfold removeProductFromCatalogue
    cases s.catalogueProducts.find? (fun cp => cp.catalogueId = cid ∧ cp.productId = z) with
    | none => rfl
    | some cp => rfl

theorem foldl_removeStep_products (cid : Nat) (ids : List IdVal) (cur : List Nat)
    (s : Storage) : (cur.foldl (removeStep cid ids) s).products = s.products := by
  induction cur generalizing s with
  | nil => rfl
  | cons z cur' ih => rw [List.foldl_cons, ih, removeStep_products]

theorem foldl_removeStep_ctr (cid : Nat) (ids : List IdVal) (cur : List Nat)
    (s : Storage) : (cur.foldl (removeStep cid ids) s).currentCatalogueProductId =
      s.currentCatalogueProductId := by
  induction cur generalizing s with
  | nil => rfl
  | cons z cur' ih => rw [List.foldl_cons, ih, removeStep_ctr]

/-- The two add steps of a `productIds: [x, y]` body (as decimal strings)
append exactly the join rows for whichever of `x`, `y` is not yet current,
with fresh ids. -/
theorem addTwo_cps (uid cid x y : Nat) (cur : List Nat) (s s2 : Storage)
    {px py : Product}
    (hs2 : s2 = [IdVal.str (natToString x), IdVal.str (natToString y)].foldl
      (addStep uid cid cur) s)
    (hx : getProduct s x = some px) (hxo : px.userId = uid)
    (hy : getProduct s y = some py) (hyo : py.userId = uid) :
    ∃ newRows : List CatalogueProduct,
      s2.catalogueProducts = s.catalogueProducts ++ newRows ∧
      newRows.map (·.productId) =
        (if x ∈ cur then [] else [x]) ++ (if y ∈ cur then [] else [y]) ∧
      (∀ r ∈ newRows, r.catalogueId = cid) ∧
      (∀ r ∈ newRows, s.currentCatalogueProductId ≤ r.id ∧
        r.id < s2.currentCatalogueProductId) ∧
      (newRows.map (·.id)).Nodup ∧
      s.currentCatalogueProductId ≤ s2.currentCatalogueProductId ∧
      s2.products = s.products := by
  have hfold : [IdVal.str (natToString x), IdVal.str (natToString y)].foldl
      (addStep uid cid cur) s =
      addStep uid cid cur (addStep uid cid cur s (.str (natToString x)))
        (.str (natToString y)) := rfl
  rw [hfold] at hs2
  rw [addStep_str cid cur hx hxo] at hs2
  by_cases hxm : x ∈ cur
  · rw [if_pos hxm] at hs2
    rw [addStep_str cid cur hy hyo] at hs2
    by_cases hym : y ∈ cur
    · rw [if_pos hym] at hs2
      subst hs2
      exact ⟨[], by simp, by simp [hxm, hym], by simp, by simp, by simp, le_refl _, rfl⟩
    · rw [if_neg hym] at hs2
      subst hs2
      refine ⟨[(⟨s.currentCatalogueProductId, cid, y⟩ : CatalogueProduct)], rfl,
        by simp [hxm, hym], by simp, ?_, by simp, ?_, rfl⟩
      · intro r hr
        rw [List.mem_singleton] at hr
        subst hr
        exact ⟨le_refl _, by simp [addProductToCatalogue]⟩
      · simp [addProductToCatalogue]
  · rw [if_neg hxm] at hs2
    have hy1 : getProduct (addProductToCatalogue s cid x).2 y = some py := hy
    rw [addStep_str cid cur hy1 hyo] at hs2
    by_cases hym : y ∈ cur
    · rw [if_pos hym] at hs2
      subst hs2
      refine ⟨[(⟨s.currentCatalogueProductId, cid, x⟩ : CatalogueProduct)], rfl,
        by simp [hxm, hym], by simp, ?_, by simp, ?_, rfl⟩
      · intro r hr
        rw [List.mem_singleton] at hr
        subst hr
        exact ⟨le_refl _, by simp [addProductToCatalogue]⟩
      · simp [addProductToCatalogue]
    · rw [if_neg hym] at hs2
      subst hs2
      refine ⟨[(⟨s.currentCatalogueProductId, cid, x⟩ : CatalogueProduct),
        (⟨s.currentCatalogueProductId + 1, cid, y⟩ : CatalogueProduct)],
        by simp [addProductToCatalogue], by simp [hxm, hym], ?_, ?_, ?_, ?_, rfl⟩
      · intro r hr
        rcases List.mem_cons.mp hr with rfl | hr
        · rfl
        · rw [List.mem_singleton] at hr
          subst hr
          rfl
      · intro r hr
        rcases List.mem_cons.mp hr with rfl | hr
        · exact ⟨le_refl _, by simp [addProductToCatalogue]; omega⟩
        · rw [List.mem_singleton] at hr
          subst hr
          exact ⟨(by omega :
              s.currentCatalogueProductId ≤ s.currentCatalogueProductId + 1),
            by simp [addProductToCatalogue]⟩
      · simp
      · simp [addProductToCatalogue]
        omega

/-- Core analysis of one `PUT /api/catalogues/:id` with
`productIds: [x, y]` sent as decimal strings, split into the update (`s1`),
add (`s2`), and removal (`s3`) stages. -/
theorem putCatalogue_sync_aux (s s1 s2 s3 : Storage) (uid cid x y : Nat)
    (u : CatalogueUpdate) (cat : Catalogue) (px py : Product)
    (ids : List IdVal) (cur : List Nat)
    (hids_def : ids = [.str (natToString x), .str (natToString y)])
    (hs1 : s1 = (updateCatalogue s cid { u with userId := none }).2)
    (hcur : cur = pidsOf s1 cid)
    (hs2 : s2 = ids.foldl (addStep uid cid cur) s1)
    (hs3 : s3 = cur.foldl (removeStep cid ids) s2)
    (hwf : syncWF s cid)
    (hcat : getCatalogue s cid = some cat)
    (hx : getProduct s x = some px) (hxo : px.userId = uid)
    (hy : getProduct s y = some py) (hyo : py.userId = uid)
    (hxy : x ≠ y) :
    (∀ z, z ∈ pidsOf s3 cid ↔ (z = x ∨ z = y)) ∧
    syncWF s3 cid ∧
    getCatalogue s3 cid = some (applyCatalogueUpdate cat { u with userId := none }) ∧
    s3.products = s.products := by
  obtain ⟨hids0, hbound0, hpids0, hex0⟩ := hwf
  obtain ⟨h1cps, h1prod, h1ctr⟩ := updateCatalogue_parts s cid { u with userId := none }
  rw [← hs1] at h1cps h1prod h1ctr
  have h1rows : rowsFor s1 cid = rowsFor s cid := by
    unfold rowsFor
    rw [h1cps]
  have h1get : ∀ n, getProduct s1 n = getProduct s n := getProduct_congr h1prod
  have hex1 : ∀ cp ∈ rowsFor s1 cid, (getProduct s1 cp.productId).isSome = true := by
    intro cp hcp
    rw [h1rows] at hcp
    rw [h1get]
    exact hex0 cp hcp
  have hcur_rows : cur = (rowsFor s cid).map (·.productId) := by
    rw [hcur, pidsOf_eq_rowPids hex1, h1rows]
  have hcur_nodup : cur.Nodup := by
    rw [hcur_rows]
    exact hpids0
  have hx1 : getProduct s1 x = some px := by
    rw [h1get]
    exact hx
  have hy1 : getProduct s1 y = some py := by
    rw [h1get]
    exact hy
  obtain ⟨newRows, hn_cps, hn_pids, hn_cid, hn_idrange, hn_idnodup, hn_ctr, hn_prod⟩ :=
    addTwo_cps uid cid x y cur s1 s2 (by rw [hs2, hids_def]) hx1 hxo hy1 hyo
  have h2cps : s2.catalogueProducts = s.catalogueProducts ++ newRows := by
    rw [hn_cps, h1cps]
  have h2prod : s2.products = s.products := by
    rw [hn_prod, h1prod]
  have h2get : ∀ n, getProduct s2 n = getProduct s n := getProduct_congr h2prod
  have h2ids : (s2.catalogueProducts.map (·.id)).Nodup := by
    rw [h2cps, List.map_append, List.nodup_append]
    refine ⟨hids0, hn_idnodup, ?_⟩
    intro i hi hj
    rw [List.mem_map] at hi hj
    obtain ⟨cp, hcpmem, rfl⟩ := hi
    obtain ⟨r, hrmem, hrj⟩ := hj
    have h1 : cp.id < s.currentCatalogueProductId := hbound0 cp hcpmem
    have h2 : s1.currentCatalogueProductId ≤ r.id := (hn_idrange r hrmem).1
    rw [h1ctr] at h2
    omega
  have h2rows : rowsFor s2 cid = rowsFor s cid ++ newRows := by
    unfold rowsFor
    rw [h2cps, List.filter_append]
    congr 1
    exact List.filter_eq_self.mpr (fun r hr => by simp [hn_cid r hr])
  have h2rpids : (rowsFor s2 cid).map (·.productId) =
      cur ++ ((if x ∈ cur then [] else [x]) ++ (if y ∈ cur then [] else [y])) := by
    rw [h2rows, List.map_append, hn_pids, hcur_rows]
  have h2rpids_nodup : ((rowsFor s2 cid).map (·.productId)).Nodup := by
    rw [h2rpids, List.nodup_append]
    refine ⟨hcur_nodup, ?_, ?_⟩
    · by_cases hxm : x ∈ cur <;> by_cases hym : y ∈ cur <;>
        simp [hxm, hym, hxy]
    · intro z hz hz2
      rw [List.mem_append] at hz2
      rcases hz2 with h | h
      · by_cases hxm : x ∈ cur
        · simp [hxm] at h
        · simp [hxm] at h
          subst h
          exact hxm hz
      · by_cases hym : y ∈ cur
        · simp [hym] at h
        · simp [hym] at h
          subst h
          exact hym hz
  have h3cps : s3.catalogueProducts = s2.catalogueProducts.filter
      (fun cp => ¬(cp.catalogueId = cid ∧ cp.productId ∈ cur ∧
        includesStr ids (natToString cp.productId) = false)) := by
    rw [hs3]
    exact removeLoop_cps cid ids cur s2 hcur_nodup h2ids h2rpids_nodup
  have h3prod : s3.products = s.products := by
    rw [hs3, foldl_removeStep_products, h2prod]
  have h3ctr : s3.currentCatalogueProductId = s2.currentCatalogueProductId := by
    rw [hs3, foldl_removeStep_ctr]
  have h3get : ∀ n, getProduct s3 n = getProduct s n := getProduct_congr h3prod
  have h3ids : (s3.catalogueProducts.map (·.id)).Nodup := by
    rw [h3cps]
    exact ((List.filter_sublist _).map _).nodup h2ids
  have h3rows : rowsFor s3 cid = (rowsFor s2 cid).filter
      (fun cp => ¬(cp.productId ∈ cur ∧
        includesStr ids (natToString cp.productId) = false)) := by
    unfold rowsFor
    rw [h3cps, List.filter_filter, List.filter_filter]
    apply List.filter_congr
    intro cp _
    by_cases hcat' : cp.catalogueId = cid
    · simp [hcat']
    · simp [hcat']
  have h3rpids : (rowsFor s3 cid).map (·.productId) =
      ((rowsFor s2 cid).map (·.productId)).filter
        (fun z => ¬(z ∈ cur ∧ includesStr ids (natToString z) = false)) := by
    rw [h3rows, List.filter_map]
    rfl
  have hex3 : ∀ cp ∈ rowsFor s3 cid, (getProduct s3 cp.productId).isSome = true := by
    intro cp hcp
    rw [h3get]
    rw [h3rows] at hcp
    have hcp2 : cp ∈ rowsFor s2 cid := List.mem_filter.mp hcp |>.1
    rw [h2rows] at hcp2
    rcases List.mem_append.mp hcp2 with h | h
    · exact hex0 cp h
    · have hpid : cp.productId ∈ newRows.map (·.productId) :=
        List.mem_map_of_mem (·.productId) h
      rw [hn_pids] at hpid
      rw [List.mem_append] at hpid
      rcases hpid with h' | h'
      · by_cases hxm : x ∈ cur
        · simp [hxm] at h'
        · simp [hxm] at h'
          rw [h', hx]
          rfl
      · by_cases hym : y ∈ cur
        · simp [hym] at h'
        · simp [hym] at h'
          rw [h', hy]
          rfl
  have hmem : ∀ z, z ∈ pidsOf s3 cid ↔ (z = x ∨ z = y) := by
    intro z
    rw [pidsOf_eq_rowPids hex3, h3rpids, List.mem_filter, h2rpids]
    rw [hids_def]
    constructor
    · rintro ⟨hz, hq⟩
      simp only [decide_eq_true_eq] at hq
      by_cases hzx : z = x
      · exact Or.inl hzx
      by_cases hzy : z = y
      · exact Or.inr hzy
      exfalso
      rw [List.mem_append] at hz
      rcases hz with h | h
      · refine hq ⟨h, ?_⟩
        cases hb : includesStr [IdVal.str (natToString x), IdVal.str (natToString y)]
            (natToString z) with
        | false => rfl
        | true =>
          rcases (includesStr_pair x y z).mp hb with h' | h'
          · exact absurd h' hzx
          · exact absurd h' hzy
      · rw [List.mem_append] at h
        rcases h with h | h
        · by_cases hxm : x ∈ cur
          · simp [hxm] at h
          · simp [hxm] at h
            exact hzx h
        · by_cases hym : y ∈ cur
          · simp [hym] at h
          · simp [hym] at h
            exact hzy h
    · intro hz
      have hinc : includesStr [.str (natToString x), .str (natToString y)]
          (natToString z) = true := (includesStr_pair x y z).mpr hz
      refine ⟨?_, by simp [hinc]⟩
      rw [List.mem_append, List.mem_append]
      rcases hz with rfl | rfl
      · by_cases hxm : z ∈ cur
        · exact Or.inl hxm
        · exact Or.inr (Or.inl (by simp [hxm]))
      · by_cases hym : z ∈ cur
        · exact Or.inl hym
        · exact Or.inr (Or.inr (by simp [hym]))
  refine ⟨hmem, ⟨h3ids, ?_, ?_, hex3⟩, ?_, h3prod⟩
  · intro cp hcp
    rw [h3cps] at hcp
    have hcp2 : cp ∈ s2.catalogueProducts := List.mem_filter.mp hcp |>.1
    rw [h2cps] at hcp2
    rw [h3ctr]
    rcases List.mem_append.mp hcp2 with h | h
    · have := hbound0 cp h
      have hctr : s1.currentCatalogueProductId ≤ s2.currentCatalogueProductId := hn_ctr
      rw [h1ctr] at hctr
      omega
    · exact (hn_idrange cp h).2
  · rw [h3rpids]
    exact (List.filter_sublist _).nodup h2rpids_nodup
  · have h3cat : s3.catalogues = s1.catalogues := by
      rw [hs3, foldl_removeStep_catalogues, hs2, foldl_addStep_catalogues]
    rw [getCatalogue_congr h3cat, hs1, getCatalogue_updateCatalogue, hcat]
    rfl

/-- One `PUT /api/catalogues/:id` with string `productIds: [x, y]` (owned,
existing, distinct products) leaves the catalogue associated with exactly
`{x, y}` and preserves the store invariants. -/
theorem putCatalogue_sync (s : Storage) (uid cid x y : Nat) (u : CatalogueUpdate)
    (cat : Catalogue) (px py : Product)
    (hwf : syncWF s cid) (hcat : getCatalogue s cid = some cat)
    (howner : cat.userId = uid)
    (hx : getProduct s x = some px) (hxo : px.userId = uid)
    (hy : getProduct s y = some py) (hyo : py.userId = uid)
    (hxy : x ≠ y) :
    (∀ z, z ∈ pidsOf (putCatalogueH s uid cid
        { update := u,
          productIds := some [.str (natToString x), .str (natToString y)] }).2 cid ↔
      (z = x ∨ z = y)) ∧
    syncWF (putCatalogueH s uid cid
      { update := u,
        productIds := some [.str (natToString x), .str (natToString y)] }).2 cid ∧
    getCatalogue (putCatalogueH s uid cid
        { update := u,
          productIds := some [.str (natToString x), .str (natToString y)] }).2 cid =
      some (applyCatalogueUpdate cat { u with userId := none }) ∧
    (putCatalogueH s uid cid
      { update := u,
        productIds := some [.str (natToString x), .str (natToString y)] }).2.products =
      s.products := by
  have hstate : (putCatalogueH s uid cid
      { update := u,
        productIds := some [.str (natToString x), .str (natToString y)] }).2 =
      (pidsOf (updateCatalogue s cid { u with userId := none }).2 cid).foldl
        (removeStep cid [.str (natToString x), .str (natToString y)])
        ([IdVal.str (natToString x), IdVal.str (natToString y)].foldl
          (addStep uid cid
            (pidsOf (updateCatalogue s cid { u with userId := none }).2 cid))
          (updateCatalogue s cid { u with userId := none }).2) := by
    unfold putCatalogueH
    rw [hcat]
    simp only []
    rw [if_neg (by simp [howner])]
    rfl
  rw [hstate]
  exact putCatalogue_sync_aux s _ _ _ uid cid x y u cat px py _ _ rfl rfl rfl rfl rfl
    ⟨hwf.1, hwf.2.1, hwf.2.2.1, hwf.2.2.2⟩ hcat hx hxo hy hyo hxy

/-- C6 counterexample.  With numeric `productIds` (as a JSON client naturally
sends them), `includes(currentProductId.toString())` is always false, so the
removal loop deletes every previously-present product: `[1,2]` then `[2,3]`
leaves `{3}`, not `{2,3}`. -/
theorem C6_counterexample :
    pidsOf (putCatalogueH (putCatalogueH c6State 1 1
        { productIds := some [.num 1, .num 2] }).2 1 1
        { productIds := some [.num 2, .num 3] }).2 1 = [3] ∧
    ¬ (2 ∈ pidsOf (putCatalogueH (putCatalogueH c6State 1 1
        { productIds := some [.num 1, .num 2] }).2 1 1
        { productIds := some [.num 2, .num 3] }).2 1) := by
  refine ⟨by decide, by decide⟩

/-- C6 as amended.  When the two `productIds` lists are sent as decimal
strings (the representation the handler's own removal check compares against),
`PUT` with `[a,b]` followed by `PUT` with `[b,c]` leaves the catalogue
associated with exactly `{b,c}`; with numeric ids the removal loop removes
every previously-present product instead (see the counterexample). -/
theorem C6_product_sync_amended (s : Storage) (uid cid a b c : Nat)
    (u1 u2 : CatalogueUpdate) (cat : Catalogue) (pa pb pc : Product)
    (hwf : syncWF s cid) (hcat : getCatalogue s cid = some cat)
    (howner : cat.userId = uid)
    (ha : getProduct s a = some pa) (hao : pa.userId = uid)
    (hb : getProduct s b = some pb) (hbo : pb.userId = uid)
    (hc : getProduct s c = some pc) (hco : pc.userId = uid)
    (hab : a ≠ b) (hbc : b ≠ c) :
    ∀ z, z ∈ pidsOf (putCatalogueH (putCatalogueH s uid cid
        { update := u1,
          productIds := some [.str (natToString a), .str (natToString b)] }).2 uid cid
        { update := u2,
          productIds := some [.str (natToString b), .str (natToString c)] }).2 cid ↔
      (z = b ∨ z = c) := by
  obtain ⟨hmem1, hwf1, hcat1, hprod1⟩ :=
    putCatalogue_sync s uid cid a b u1 cat pa pb hwf hcat howner ha hao hb hbo hab
  have howner1 : (applyCatalogueUpdate cat { u1 with userId := none }).userId = uid :=
    howner
  have hb' : getProduct (putCatalogueH s uid cid
      { update := u1,
        productIds := some [.str (natToString a), .str (natToString b)] }).2 b =
      some pb := (getProduct_congr hprod1 b).trans hb
  have hc' : getProduct (putCatalogueH s uid cid
      { update := u1,
        productIds := some [.str (natToString a), .str (natToString b)] }).2 c =
      some pc := (getProduct_congr hprod1 c).trans hc
  obtain ⟨hmem2, _, _, _⟩ :=
    putCatalogue_sync _ uid cid b c u2 _ pb pc hwf1 hcat1 howner1 hb' hbo hc' hco hbc
  exact hmem2

/-- Witness for the amended C6 at the concrete three-product state. -/
theorem C6_product_sync_amended_witness :
    (syncWF c6State 1 ∧ getCatalogue c6State 1 = some (wCatalogue 1 1) ∧
      getProduct c6State 1 = some (wProduct 1 1) ∧
      getProduct c6State 2 = some (wProduct 2 1) ∧
      getProduct c6State 3 = some (wProduct 3 1)) ∧
    (2 ∈ pidsOf (putCatalogueH (putCatalogueH c6State 1 1
        { productIds := some [.str (natToString 1), .str (natToString 2)] }).2 1 1
        { productIds := some [.str (natToString 2), .str (natToString 3)] }).2 1 ↔
      ((2 : Nat) = 2 ∨ (2 : Nat) = 3)) ∧
    (1 ∈ pidsOf (putCatalogueH (putCatalogueH c6State 1 1
        { productIds := some [.str (natToString 1), .str (natToString 2)] }).2 1 1
        { productIds := some [.str (natToString 2), .str (natToString 3)] }).2 1 ↔
      ((1 : Nat) = 2 ∨ (1 : Nat) = 3)) :=
  ⟨⟨⟨by decide, by decide, by decide, by decide⟩, by decide, by decide, by decide, by decide⟩,
    C6_product_sync_amended c6State 1 1 1 2 3 {} {} (wCatalogue 1 1)
      (wProduct 1 1) (wProduct 2 1) (wProduct 3 1)
      ⟨by decide, by decide, by decide, by decide⟩ (by decide) (by decide)
      (by decide) (by decide) (by decide) (by decide) (by decide) (by decide)
      (by decide) (by decide) 2,
    C6_product_sync_amended c6State 1 1 1 2 3 {} {} (wCatalogue 1 1)
      (wProduct 1 1) (wProduct 2 1) (wProduct 3 1)
      ⟨by decide, by decide, by decide, by decide⟩ (by decide) (by decide)
      (by decide) (by decide) (by decide) (by decide) (by decide) (by decide)
      (by decide) (by decide) 1⟩
